import Mathlib

/-!
Verification of the miniature-painting tracker (Next.js + DynamoDB CRUD app).

This file shallowly embeds the data model and the operations of the
repository: the stage/miniature/user records, the sort-order allocator
(`generateSortOrder` in `src/lib/schemas.ts`), the stage and miniature
database operations (`src/lib/stagesDb.ts`, `src/lib/miniatureDb.ts`),
the JWT-based authentication layer (`src/lib/userDb.ts`), the API route
handlers, and the client-side kanban drag-and-drop reconciler
(`src/components/KanbanBoard.tsx` together with
`src/stores/miniatureStore.ts`).

DynamoDB tables are modelled as Lean lists of records; `PutCommand` with a
fresh key appends, `UpdateCommand` maps over the list updating the keyed
record, `DeleteCommand` filters the keyed record out, `ScanCommand` with a
filter expression is `List.filter`, and `GetCommand` is `List.find?`.
JavaScript's stable ascending `Array.sort((a,b) => a.sortOrder - b.sortOrder)`
is modelled by `List.insertionSort`, which is also stable and produces the
identical ordering.  Timestamps and generated ids are environment inputs and
are passed as explicit parameters.
-/

/-- Stage record (`Stage` in `src/lib/schemas.ts`).  The optional
`description` is modelled as a plain string (absent = `""`). -/
structure Stage where
  id : String
  userId : String
  name : String
  description : String
  color : String
  sortOrder : Int
  isDefault : Bool
  createdAt : String
  updatedAt : String
deriving Repr, DecidableEq

/-- Miniature record (`Miniature` in `src/lib/miniatureDb.ts`); the unused
optional extension fields (image, hours, difficulty, notes, tags) are not
read by any modelled operation and are omitted. -/
structure Miniature where
  id : String
  userId : String
  name : String
  description : String
  stageId : String
  createdAt : String
  updatedAt : String
deriving Repr, DecidableEq

/-- Stored user record (`User` in `src/lib/userSchema.ts`). -/
structure User where
  id : String
  email : String
  username : String
  passwordHash : String
  createdAt : String
  updatedAt : String
deriving Repr, DecidableEq

/-- Runtime shape of the object returned by `userDb.toPublicUser`.  The
TypeScript `PublicUser` interface declares only
`id/email/username/displayName/createdAt`, but the implementation spreads the
whole stored record (`const { ...publicUser } = user`), so at runtime every
`User` field — including `passwordHash` — is retained, plus `displayName`. -/
structure PublicUser where
  id : String
  email : String
  username : String
  passwordHash : String
  createdAt : String
  updatedAt : String
  displayName : String
deriving Repr, DecidableEq

/-- Ordering used by every `stages.sort((a, b) => a.sortOrder - b.sortOrder)`
call: ascending by `sortOrder`. -/
def stageLe (a b : Stage) : Prop := a.sortOrder ≤ b.sortOrder

instance : DecidableRel stageLe := fun a b => Int.decLe a.sortOrder b.sortOrder

/-- JavaScript's `Array.prototype.sort` with the comparator
`(a, b) => a.sortOrder - b.sortOrder` is a stable ascending sort; it is
modelled by the (also stable) insertion sort. -/
def sortStages (l : List Stage) : List Stage := l.insertionSort stageLe

/-- Spread of `Math.max(...stages.map(s => s.sortOrder))`; only ever called
on a non-empty list (the callers guard on `existingStages.length === 0`), so
the `[]` case is unreachable and its value irrelevant. -/
def maxSortOrder : List Int → Int
  | [] => 0
  | x :: xs => xs.foldl max x

/-- The sort-order allocator `generateSortOrder` of `src/lib/schemas.ts`.
`gap / 2` is `Int.ediv`, floor division, modelling `Math.floor(gap / 2)`.  In the
JavaScript source `findIndex` would return `-1` for an absent id, but that
branch is unreachable: `find` already succeeded on a permutation of the
sorted list, so the id is present.  (JavaScript also treats an
empty-string `insertAfterStageId` as falsy and appends; here `some ""`
goes through `find`, which can only differ if a stage has the empty id.) -/
def generateSortOrder (existingStages : List Stage)
    (insertAfterStageId : Option String) : Int :=
  if existingStages.length = 0 then
    10
  else
    match insertAfterStageId with
    | none => maxSortOrder (existingStages.map (fun s => s.sortOrder)) + 10
    | some tid =>
      match existingStages.find? (fun s => s.id == tid) with
      | none => maxSortOrder (existingStages.map (fun s => s.sortOrder)) + 10
      | some insertAfterStage =>
        let sortedStages := sortStages existingStages
        let insertIndex := sortedStages.findIdx (fun s => s.id == tid)
        match sortedStages[insertIndex + 1]? with
        | none => insertAfterStage.sortOrder + 10
        | some nextStage =>
          let gap := nextStage.sortOrder - insertAfterStage.sortOrder
          if gap > 1 then
            insertAfterStage.sortOrder + gap / 2
          else
            insertAfterStage.sortOrder + 10

/-! ## Shared validation utilities (`src/lib/database.ts`, `src/lib/userSchema.ts`) -/

/-- JavaScript `String.prototype.trim()`: drop leading and trailing
whitespace.  Implemented over the character list so that it is
kernel-computable. -/
def trimString (s : String) : String :=
  String.mk (((s.toList.dropWhile Char.isWhitespace).reverse.dropWhile
    Char.isWhitespace).reverse)

/-- JavaScript `String.prototype.toLowerCase()`, over the character list. -/
def toLowerString (s : String) : String :=
  String.mk (s.toList.map Char.toLower)

/-- Split a character list at every occurrence of a separator character. -/
def splitChars (c : Char) : List Char → List (List Char)
  | [] => [[]]
  | x :: xs =>
    match splitChars c xs with
    | [] => [[]]
    | g :: gs => if x == c then [] :: g :: gs else (x :: g) :: gs

/-- JavaScript `String.prototype.split(c)` for a single-character separator. -/
def splitOnChar (c : Char) (s : String) : List String :=
  (splitChars c s.toList).map String.mk

/-- The `validateRequiredString` helper of `src/lib/database.ts`: throws unless
the value is a non-blank string, and returns it trimmed.  (The `typeof`
check is vacuous in this typed embedding.) -/
def validateRequiredString (value fieldName : String) : Except String String :=
  if trimString value = "" then
    .error (fieldName ++ " is required and must be a non-empty string")
  else
    .ok (trimString value)

/-- Character class `[^\s@]` of the email regex in `src/lib/userSchema.ts`. -/
def isEmailChar (c : Char) : Bool := !c.isWhitespace && c != '@'

/-- Whether the string has a `.` that is neither its first nor its last
character; this is exactly when it can be split as `[^\s@]+ \. [^\s@]+`
given that all its characters are already in `[^\s@]` (that class contains
`.` itself). -/
def hasInnerDot (s : String) : Bool :=
  let cs := s.toList
  (List.range cs.length).any
    (fun i => decide (0 < i) && decide (i + 1 < cs.length) && (cs.getD i ' ' == '.'))

/-- Test of the anchored regex `/^[^\s@]+@[^\s@]+\.[^\s@]+$/`: exactly one
`@`, a non-empty local part, and a domain part containing an interior dot,
with no whitespace or further `@` anywhere. -/
def emailRegexTest (e : String) : Bool :=
  match splitOnChar '@' e with
  | [a, r] => a != "" && a.toList.all isEmailChar && r.toList.all isEmailChar && hasInnerDot r
  | _ => false

/-- The `validateEmail` helper of `src/lib/userSchema.ts`. -/
def validateEmail (email : String) : Option String :=
  if email = "" || !emailRegexTest email then
    some "Please enter a valid email address"
  else
    none

/-- Character class `[a-zA-Z0-9_-]` of the username regex. -/
def isUsernameChar (c : Char) : Bool :=
  ('a' ≤ c && c ≤ 'z') || ('A' ≤ c && c ≤ 'Z') || ('0' ≤ c && c ≤ '9') || c == '_' || c == '-'

/-- The `validateUsername` helper of `src/lib/userSchema.ts`. -/
def validateUsername (username : String) : Option String :=
  if username = "" || username.length < 3 then
    some "Username must be at least 3 characters long"
  else if username.length > 30 then
    some "Username must be 30 characters or less"
  else if !(username.toList.all isUsernameChar) then
    some "Username can only contain letters, numbers, underscores, and hyphens"
  else
    none

/-- The `validatePassword` helper of `src/lib/userSchema.ts`. -/
def validatePassword (password : String) : Option String :=
  if password = "" || password.length < 8 then
    some "Password must be at least 8 characters long"
  else
    none

/-! ## JWT model (`jsonwebtoken` usage in `src/lib/userDb.ts`)

A signed token is modelled as its decoded payload (`userId/email/username`,
`iat`, `exp`) together with a `sig` field recording which secret signed it:
`jwt.sign(payload, SECRET, { expiresIn: '7d' })` sets `sig` to the secret
and `exp` to `iat + 7` days, and `jwt.verify(token, SECRET)` succeeds
exactly when `sig` equals the verifier's secret and the token has not
expired (`jsonwebtoken` rejects once the clock reaches `exp`). -/

/-- Decoded JWT payload plus the signing secret. -/
structure Token where
  userId : String
  email : String
  username : String
  iat : Nat
  exp : Nat
  sig : String
deriving Repr, DecidableEq

/-- `JWT_EXPIRES_IN = '7d'` in seconds. -/
def jwtExpiresInSeconds : Nat := 7 * 24 * 60 * 60

namespace userDb

/-- `userDb.generateToken`: payload carries the user's id, email and
username; `iat` is the current clock and `expiresIn: '7d'` makes
`exp = iat + 604800`. -/
def generateToken (secret : String) (now : Nat) (user : User) : Token :=
  { userId := user.id, email := user.email, username := user.username,
    iat := now, exp := now + jwtExpiresInSeconds, sig := secret }

/-- `userDb.getUserById` (DynamoDB `GetCommand` on the `Users` table key). -/
def getUserById (users : List User) (userId : String) : Option User :=
  users.find? (fun u => u.id == userId)

/-- `userDb.getUserByEmail` (`ScanCommand` filtering `email = :email` with the
query lowercased, taking the first match). -/
def getUserByEmail (users : List User) (email : String) : Option User :=
  users.find? (fun u => u.email == toLowerString email)

/-- `userDb.getUserByUsername` (same shape as `getUserByEmail`). -/
def getUserByUsername (users : List User) (username : String) : Option User :=
  users.find? (fun u => u.username == toLowerString username)

/-- `userDb.toPublicUser`: the implementation spreads the whole record
(`const { ...publicUser } = user`) and adds `displayName`, so every stored
field — `passwordHash` included — is retained. -/
def toPublicUser (user : User) : PublicUser :=
  { id := user.id, email := user.email, username := user.username,
    passwordHash := user.passwordHash, createdAt := user.createdAt,
    updatedAt := user.updatedAt, displayName := user.username }

/-- `userDb.verifyToken`: `jwt.verify` succeeds iff the token was signed with
the same secret and is unexpired; then the user record is re-fetched and
converted with `toPublicUser`; any failure yields `null`. -/
def verifyToken (secret : String) (now : Nat) (users : List User) (t : Token) :
    Option PublicUser :=
  if t.sig = secret ∧ now < t.exp then
    match getUserById users t.userId with
    | none => none
    | some user => some (toPublicUser user)
  else
    none

end userDb

/-- The request body of `POST /api/auth/register`; `""` models a missing or
empty (falsy) field. -/
structure RegisterRequest where
  email : String
  username : String
  password : String
deriving Repr, DecidableEq

namespace userDb

/-- `userDb.createUser`.  `hash` abstracts the sampled salted
`bcrypt.hash(password, 12)`; `freshId`/`now`/`tokenNow` are the generated id
and clock readings.  The `PutCommand` with a fresh key appends the record;
every thrown validation or duplicate error surfaces as `.error`. -/
def createUser (secret : String) (hash : String → String) (freshId now : String)
    (tokenNow : Nat) (users : List User) (body : RegisterRequest) :
    Except String (List User × PublicUser × Token) :=
  match validateRequiredString body.email "email" with
  | .error e => .error e
  | .ok email =>
  match validateRequiredString body.username "username" with
  | .error e => .error e
  | .ok username =>
  match validateRequiredString body.password "password" with
  | .error e => .error e
  | .ok password =>
  match validateEmail email with
  | some e => .error e
  | none =>
  match validateUsername username with
  | some e => .error e
  | none =>
  match validatePassword password with
  | some e => .error e
  | none =>
  if (getUserByEmail users email).isSome then
    .error "An account with this email already exists"
  else if (getUserByUsername users username).isSome then
    .error "This username is already taken"
  else
    let user : User :=
      { id := freshId, email := toLowerString email, username := toLowerString username,
        passwordHash := hash password, createdAt := now, updatedAt := now }
    .ok (users ++ [user], toPublicUser user, generateToken secret tokenNow user)

/-- `userDb.authenticateUser`: find the user by email, check the password
with `bcrypt.compare` (abstracted as `bcryptCheck password hash`), and issue
a token.  The non-critical `updateLastLogin` write touches only a
`lastLoginAt` attribute read by nothing modelled here and is elided. -/
def authenticateUser (secret : String) (bcryptCheck : String → String → Bool)
    (tokenNow : Nat) (users : List User) (email password : String) :
    Except String (Option (PublicUser × Token)) :=
  match validateRequiredString email "email" with
  | .error e => .error e
  | .ok email =>
  match validateRequiredString password "password" with
  | .error e => .error e
  | .ok password =>
  match getUserByEmail users email with
  | none => .ok none
  | some user =>
    if bcryptCheck password user.passwordHash then
      .ok (some (toPublicUser user, generateToken secret tokenNow user))
    else
      .ok none

end userDb

/-- The `Authorization` header of a request, classified the way
`getUserFromRequest` branches on it: absent, present without the
`Bearer ` prefix, a bearer string whose token part `jwt.verify` cannot even
parse, or a structurally valid JWT. -/
inductive AuthHeader where
  | missing : AuthHeader
  | notBearer (raw : String) : AuthHeader
  | bearerGarbage (raw : String) : AuthHeader
  | bearerTok (t : Token) : AuthHeader
deriving Repr, DecidableEq

/-- The middleware helper `getUserFromRequest` of `src/lib/userDb.ts`:
`null` header or no `Bearer ` prefix yields `null`; otherwise the token is
verified (unparsable tokens make `jwt.verify` throw, which `verifyToken`
catches into `null`). -/
def getUserFromRequest (secret : String) (now : Nat) (users : List User) :
    AuthHeader → Option PublicUser
  | .missing => none
  | .notBearer _ => none
  | .bearerGarbage _ => none
  | .bearerTok t => userDb.verifyToken secret now users t

/-! ## Stage database operations (`src/lib/stagesDb.ts`) -/

namespace stagesDb

/-- `stagesDb.getAllForUser`: scan filtered by owner, then sorted ascending
by `sortOrder` "for consistent display". -/
def getAllForUser (userId : String) (table : List Stage) : List Stage :=
  sortStages (table.filter (fun s => s.userId == userId))

/-- `stagesDb.getById` (`GetCommand` on the `Stages` table key). -/
def getById (stageId : String) (table : List Stage) : Option Stage :=
  table.find? (fun s => s.id == stageId)

/-- The dynamic update-expression of `stagesDb.update`, specialised to the
only call that matters for the modelled claims: `update(stageId,
{ sortOrder })`, which sets `sortOrder` and the always-written `updatedAt`
on the keyed item.  Every id it is invoked with by `reorderStages` has been
checked to exist, so the `UpdateCommand` upsert behaviour on a missing key
is not exercised. -/
def updateSortOrder (now : String) (stageId : String) (v : Int)
    (table : List Stage) : List Stage :=
  table.map (fun s =>
    if s.id == stageId then { s with sortOrder := v, updatedAt := now } else s)

/-- Body of `stagesDb.reorderStages`: each id in the array gets
`sortOrder = (index + 1) * 10`.  The `Promise.all` of per-key updates is
sequentialised; the updates touch pairwise distinct keys. -/
def reorderFrom (now : String) : List String → Nat → List Stage → List Stage
  | [], _, table => table
  | stageId :: rest, idx, table =>
    reorderFrom now rest (idx + 1)
      (updateSortOrder now stageId (((idx : Int) + 1) * 10) table)

/-- `stagesDb.reorderStages`. -/
def reorderStages (now : String) (orderedStageIds : List String)
    (table : List Stage) : List Stage :=
  reorderFrom now orderedStageIds 0 table

/-- `stagesDb.delete` (`DeleteCommand` on the table key). -/
def deleteStage (stageId : String) (table : List Stage) : List Stage :=
  table.filter (fun s => s.id != stageId)

end stagesDb

/-- Template entries of `DEFAULT_STAGE_TEMPLATES` in `src/lib/schemas.ts`. -/
structure StageTemplate where
  name : String
  description : String
  color : String
  sortOrder : Int
  isDefault : Bool
deriving Repr, DecidableEq

/-- The eight default stage templates (`DEFAULT_STAGE_TEMPLATES`). -/
def DEFAULT_STAGE_TEMPLATES : List StageTemplate :=
  [ ⟨"Queue", "Miniatures waiting to be started", "gray", 0, true⟩,
    ⟨"Prime", "Ready for priming or currently being primed", "yellow", 10, true⟩,
    ⟨"Base Coat", "Applying main colors to large areas", "orange", 20, true⟩,
    ⟨"Wash", "Adding shadows and depth with washes", "purple", 30, true⟩,
    ⟨"Highlight", "Adding highlights and edge details", "pink", 40, true⟩,
    ⟨"Details", "Final details, decals, and finishing touches", "indigo", 50, true⟩,
    ⟨"Basing", "Adding terrain, texture, and environmental details to the base", "emerald", 60, true⟩,
    ⟨"Finished", "Completed miniatures ready for gaming or display", "green", 70, true⟩ ]

namespace stagesDb

/-- The source's `initializeDefaultStages`: instantiate every template with a
fresh id and the current timestamp, put them all, and return them sorted by
`sortOrder`.  Returns (sorted created stages, new table). -/
def initDefaultStages (freshIds : Nat → String) (now userId : String)
    (table : List Stage) : List Stage × List Stage :=
  let created := DEFAULT_STAGE_TEMPLATES.enum.map (fun p =>
    { id := freshIds p.1, userId := userId, name := p.2.name,
      description := p.2.description, color := p.2.color,
      sortOrder := p.2.sortOrder, isDefault := p.2.isDefault,
      createdAt := now, updatedAt := now : Stage })
  (sortStages created, table ++ created)

end stagesDb

/-! ## Miniature database operations (`src/lib/miniatureDb.ts`) -/

namespace miniatureDb

/-- `miniatureDb.getAllForUser` (scan filtered by owner; no sort). -/
def getAllForUser (userId : String) (table : List Miniature) : List Miniature :=
  table.filter (fun m => m.userId == userId)

/-- `miniatureDb.getAllInStage` (scan filtered by owner and stage). -/
def getAllInStage (userId stageId : String) (table : List Miniature) : List Miniature :=
  table.filter (fun m => m.userId == userId && m.stageId == stageId)

/-- `miniatureDb.getById` (`GetCommand` on the `Miniatures` table key). -/
def getById (miniatureId : String) (table : List Miniature) : Option Miniature :=
  table.find? (fun m => m.id == miniatureId)

/-- `miniatureDb.create`: validates `name` and `stageId` as required strings
(`description` optional, trimmed), builds the record with a fresh id and
puts it. -/
def create (freshId now userId : String) (name description stageId : String)
    (table : List Miniature) : Except String (Miniature × List Miniature) :=
  match validateRequiredString name "name" with
  | .error e => .error e
  | .ok name =>
  let description := trimString description
  match validateRequiredString stageId "stageId" with
  | .error e => .error e
  | .ok stageId =>
  let m : Miniature :=
    { id := freshId, userId := userId, name := name, description := description,
      stageId := stageId, createdAt := now, updatedAt := now }
  .ok (m, table ++ [m])

end miniatureDb

/-! ## API route handlers

Responses are modelled as one record per payload shape: HTTP status plus the
`{success, data|error}` envelope fields actually written by each handler. -/

/-- Response of a handler whose `data` is a list of stages. -/
structure StageListResponse where
  status : Nat
  success : Bool
  data : Option (List Stage)
  error : Option String
deriving Repr, DecidableEq

/-- Response of a handler whose `data` is a single stage. -/
structure StageResponse where
  status : Nat
  success : Bool
  data : Option Stage
  error : Option String
deriving Repr, DecidableEq

/-- Response of a handler whose `data` is a list of miniatures. -/
structure MiniListResponse where
  status : Nat
  success : Bool
  data : Option (List Miniature)
  error : Option String
deriving Repr, DecidableEq

/-- Response of a handler whose `data` is a single miniature. -/
structure MiniResponse where
  status : Nat
  success : Bool
  data : Option Miniature
  error : Option String
deriving Repr, DecidableEq

/-- Response of a handler that returns only a message (stage deletion). -/
structure MessageResponse where
  status : Nat
  success : Bool
  message : Option String
  error : Option String
deriving Repr, DecidableEq

/-- Response of the auth endpoints (`register`, `login`, `me`). -/
structure AuthApiResponse where
  status : Nat
  success : Bool
  user : Option PublicUser
  token : Option Token
  error : Option String
deriving Repr, DecidableEq

/-- The hard-coded development user id used by the `/api/stages` collection
route (`src/app/api/stages/route.ts`). -/
def TEMP_USER_ID : String := "dev-user-1"

/-- `GET /api/stages` (`src/app/api/stages/route.ts`).  The handler is
declared as `export async function GET()` — it takes no request object and
never reads the `Authorization` header; it serves the stages of the
hard-coded `TEMP_USER_ID`, initialising the default stages when there are
none.  Returns (response, new stages table). -/
def stagesGET (freshIds : Nat → String) (now : String)
    (stagesTable : List Stage) : StageListResponse × List Stage :=
  let stages := stagesDb.getAllForUser TEMP_USER_ID stagesTable
  if stages.length = 0 then
    let init := stagesDb.initDefaultStages freshIds now TEMP_USER_ID stagesTable
    ({ status := 200, success := true, data := some init.1, error := none }, init.2)
  else
    ({ status := 200, success := true, data := some stages, error := none }, stagesTable)

/-- `GET /api/stages/[id]` (authenticated handler of
`src/app/api/stages/[id]/route.ts`). -/
def stagesIdGET (secret : String) (now : Nat) (users : List User)
    (h : AuthHeader) (stageId : String) (stagesTable : List Stage) : StageResponse :=
  match getUserFromRequest secret now users h with
  | none =>
    { status := 401, success := false, data := none, error := some "Authentication required" }
  | some user =>
    match stagesDb.getById stageId stagesTable with
    | none =>
      { status := 404, success := false, data := none, error := some "Stage not found" }
    | some stage =>
      if stage.userId ≠ user.id then
        { status := 404, success := false, data := none, error := some "Stage not found" }
      else
        { status := 200, success := true, data := some stage, error := none }

/-- `DELETE /api/stages/[id]` (authenticated handler of
`src/app/api/stages/[id]/route.ts`): 401 without a verified user, 404 for a
missing or foreign stage, 400 when the stage still holds miniatures, 400 for
a default stage, otherwise delete and 200.  Returns (response, new stages
table). -/
def stagesIdDELETE (secret : String) (now : Nat) (users : List User)
    (h : AuthHeader) (stageId : String) (stagesTable : List Stage)
    (minisTable : List Miniature) : MessageResponse × List Stage :=
  match getUserFromRequest secret now users h with
  | none =>
    ({ status := 401, success := false, message := none,
       error := some "Authentication required" }, stagesTable)
  | some user =>
    match stagesDb.getById stageId stagesTable with
    | none =>
      ({ status := 404, success := false, message := none,
         error := some "Stage not found" }, stagesTable)
    | some existingStage =>
      if existingStage.userId ≠ user.id then
        ({ status := 404, success := false, message := none,
           error := some "Stage not found" }, stagesTable)
      else
        let miniaturesInStage := miniatureDb.getAllInStage user.id stageId minisTable
        if miniaturesInStage.length > 0 then
          ({ status := 400, success := false, message := none,
             error := some "Cannot delete stage with miniatures. Move them to other stages first." },
           stagesTable)
        else if existingStage.isDefault then
          ({ status := 400, success := false, message := none,
             error := some "Cannot delete default stages. You can edit them instead." },
           stagesTable)
        else
          ({ status := 200, success := true, message := some "Stage deleted successfully",
             error := none }, stagesDb.deleteStage stageId stagesTable)

/-- `GET /api/miniatures` (`src/app/api/miniatures/route.ts`): 401 without a
verified user, otherwise the user's miniatures. -/
def miniaturesGET (secret : String) (now : Nat) (users : List User)
    (h : AuthHeader) (minisTable : List Miniature) : MiniListResponse :=
  match getUserFromRequest secret now users h with
  | none =>
    { status := 401, success := false, data := none, error := some "Authentication required" }
  | some user =>
    { status := 200, success := true,
      data := some (miniatureDb.getAllForUser user.id minisTable), error := none }

/-- Body of `POST /api/miniatures`.  The handler destructures only
`{ name, description = '' }`; the `stageId` field records that a client may
send one, which the handler never reads. -/
structure CreateMiniatureBody where
  name : String
  description : String
  stageId : Option String
deriving Repr, DecidableEq

/-- `POST /api/miniatures` (`src/app/api/miniatures/route.ts`): after auth
and name validation, the new miniature's `stageId` is taken from the first
entry of the user's sorted stage list (initialising the default stages when
the user has none); `if (!defaultStageId)` also rejects an empty-string id.
Returns (response, new stages table, new miniatures table). -/
def miniaturesPOST (secret : String) (now : Nat) (users : List User)
    (h : AuthHeader) (freshMiniId : String) (freshStageIds : Nat → String)
    (nowStr : String) (body : CreateMiniatureBody)
    (stagesTable : List Stage) (minisTable : List Miniature) :
    MiniResponse × List Stage × List Miniature :=
  match getUserFromRequest secret now users h with
  | none =>
    ({ status := 401, success := false, data := none,
       error := some "Authentication required" }, stagesTable, minisTable)
  | some user =>
    if trimString body.name = "" then
      ({ status := 400, success := false, data := none,
         error := some "Name is required and must be a non-empty string" },
       stagesTable, minisTable)
    else
      let stages := stagesDb.getAllForUser user.id stagesTable
      let afterInit :=
        if stages.length = 0 then
          let init := stagesDb.initDefaultStages freshStageIds nowStr user.id stagesTable
          (init.2, stagesDb.getAllForUser user.id init.2)
        else
          (stagesTable, stages)
      let defaultStageId := ((afterInit.2.head?).map (fun s => s.id)).getD ""
      if defaultStageId = "" then
        ({ status := 500, success := false, data := none,
           error := some "Unable to determine default stage for new miniature" },
         afterInit.1, minisTable)
      else
        match miniatureDb.create freshMiniId nowStr user.id (trimString body.name)
            (trimString body.description) defaultStageId minisTable with
        | .error _ =>
          ({ status := 500, success := false, data := none,
             error := some "Failed to create miniature" }, afterInit.1, minisTable)
        | .ok res =>
          ({ status := 201, success := true, data := some res.1, error := none },
           afterInit.1, res.2)

/-- `POST /api/auth/register`: 400 when any field is falsy, otherwise
`createUser`; its thrown errors (validation and duplicates) all surface as
400, success as 201 with the public user and token. -/
def registerPOST (secret : String) (hash : String → String) (freshId now : String)
    (tokenNow : Nat) (users : List User) (body : RegisterRequest) :
    AuthApiResponse × List User :=
  if body.email = "" || body.username = "" || body.password = "" then
    ({ status := 400, success := false, user := none, token := none,
       error := some "Email, username, and password are required" }, users)
  else
    match userDb.createUser secret hash freshId now tokenNow users body with
    | .ok res =>
      ({ status := 201, success := true, user := some res.2.1, token := some res.2.2,
         error := none }, res.1)
    | .error msg =>
      ({ status := 400, success := false, user := none, token := none,
         error := some msg }, users)

/-- `POST /api/auth/login`: 400 on falsy fields, 401 when authentication
yields `null`, 500 on a thrown error, otherwise 200 with user and token. -/
def loginPOST (secret : String) (bcryptCheck : String → String → Bool)
    (tokenNow : Nat) (users : List User) (email password : String) :
    AuthApiResponse :=
  if email = "" || password = "" then
    { status := 400, success := false, user := none, token := none,
      error := some "Email and password are required" }
  else
    match userDb.authenticateUser secret bcryptCheck tokenNow users email password with
    | .error _ =>
      { status := 500, success := false, user := none, token := none,
        error := some "An error occurred during login" }
    | .ok none =>
      { status := 401, success := false, user := none, token := none,
        error := some "Invalid email or password" }
    | .ok (some res) =>
      { status := 200, success := true, user := some res.1, token := some res.2,
        error := none }

/-- `GET /api/auth/me`: 401 unless the bearer token verifies and the user
record still exists, otherwise 200 with the freshly fetched user. -/
def meGET (secret : String) (now : Nat) (users : List User) (h : AuthHeader) :
    AuthApiResponse :=
  match getUserFromRequest secret now users h with
  | none =>
    { status := 401, success := false, user := none, token := none,
      error := some "Invalid or expired token" }
  | some user =>
    { status := 200, success := true, user := some user, token := none, error := none }

/-- The allowed update fields of `PATCH /api/miniatures/[id]`: the handler
copies only `name`, `description`, `stageId`, `notes` and `difficulty` out
of the body, each when present (`!== undefined`). -/
structure UpdateMiniatureBody where
  name : Option String
  description : Option String
  stageId : Option String
  notes : Option String
  difficulty : Option String
deriving Repr, DecidableEq

namespace miniatureDb

/-- Effect of `miniatureDb.update`'s dynamic update expression on the keyed
miniature record: a provided `name` passes `validateRequiredString` (and can
throw), a provided `description` passes `validateOptionalString` (trimmed),
`stageId` is written as-is, and `updatedAt` is always refreshed.  The
`notes` and `difficulty` values are written to attributes not carried by the
modelled record (read by nothing modelled) and are elided. -/
def applyUpdate (now : String) (upd : UpdateMiniatureBody) (m : Miniature) :
    Except String Miniature :=
  let base : Miniature :=
    { m with
      description := (upd.description.map trimString).getD m.description,
      stageId := upd.stageId.getD m.stageId,
      updatedAt := now }
  match upd.name with
  | none => .ok base
  | some v =>
    match validateRequiredString v "name" with
    | .error e => .error e
    | .ok nm => .ok { base with name := nm }

/-- `miniatureDb.update` (`UpdateCommand` on the table key with
`ReturnValues: ALL_NEW`): returns the updated record and the new table.
The upsert behaviour of `UpdateCommand` on a missing key is not exercised —
every caller verifies existence first — and is modelled as a no-op. -/
def update (now : String) (miniatureId : String) (upd : UpdateMiniatureBody)
    (table : List Miniature) : Except String (Option Miniature × List Miniature) :=
  match table.find? (fun m => m.id == miniatureId) with
  | none => .ok (none, table)
  | some m =>
    match applyUpdate now upd m with
    | .error e => .error e
    | .ok updated =>
      .ok (some updated, table.map (fun x => if x.id == miniatureId then updated else x))

/-- `miniatureDb.delete` (`DeleteCommand` on the table key). -/
def deleteMiniature (miniatureId : String) (table : List Miniature) : List Miniature :=
  table.filter (fun m => m.id != miniatureId)

end miniatureDb

/-- `GET /api/miniatures/[id]` (authenticated handler of
`src/app/api/miniatures/[id]/route.ts`): 401 without a verified user, 404
for a missing or foreign miniature, otherwise 200 with it. -/
def miniaturesIdGET (secret : String) (now : Nat) (users : List User)
    (h : AuthHeader) (miniatureId : String) (minisTable : List Miniature) :
    MiniResponse :=
  match getUserFromRequest secret now users h with
  | none =>
    { status := 401, success := false, data := none,
      error := some "Authentication required" }
  | some user =>
    match miniatureDb.getById miniatureId minisTable with
    | none =>
      { status := 404, success := false, data := none,
        error := some "Miniature not found" }
    | some miniature =>
      if miniature.userId ≠ user.id then
        { status := 404, success := false, data := none,
          error := some "Miniature not found" }
      else
        { status := 200, success := true, data := some miniature, error := none }

/-- `PATCH /api/miniatures/[id]` (authenticated handler): 401 without a
verified user, 404 for a missing or foreign miniature, 400 when no allowed
field is provided, 500 when the update throws, otherwise 200 with the
updated record.  Returns (response, new miniatures table). -/
def miniaturesIdPATCH (secret : String) (now : Nat) (users : List User)
    (h : AuthHeader) (miniatureId : String) (nowStr : String)
    (body : UpdateMiniatureBody) (minisTable : List Miniature) :
    MiniResponse × List Miniature :=
  match getUserFromRequest secret now users h with
  | none =>
    ({ status := 401, success := false, data := none,
       error := some "Authentication required" }, minisTable)
  | some user =>
    match miniatureDb.getById miniatureId minisTable with
    | none =>
      ({ status := 404, success := false, data := none,
         error := some "Miniature not found" }, minisTable)
    | some existingMiniature =>
      if existingMiniature.userId ≠ user.id then
        ({ status := 404, success := false, data := none,
           error := some "Miniature not found" }, minisTable)
      else if body.name = none ∧ body.description = none ∧ body.stageId = none ∧
          body.notes = none ∧ body.difficulty = none then
        ({ status := 400, success := false, data := none,
           error := some "No valid updates provided" }, minisTable)
      else
        match miniatureDb.update nowStr miniatureId body minisTable with
        | .error _ =>
          ({ status := 500, success := false, data := none,
             error := some "Failed to update miniature" }, minisTable)
        | .ok res =>
          ({ status := 200, success := true, data := res.1, error := none }, res.2)

/-- `DELETE /api/miniatures/[id]` (authenticated handler): 401 without a
verified user, 404 for a missing or foreign miniature, otherwise delete and
200.  Returns (response, new miniatures table). -/
def miniaturesIdDELETE (secret : String) (now : Nat) (users : List User)
    (h : AuthHeader) (miniatureId : String) (minisTable : List Miniature) :
    MessageResponse × List Miniature :=
  match getUserFromRequest secret now users h with
  | none =>
    ({ status := 401, success := false, message := none,
       error := some "Authentication required" }, minisTable)
  | some user =>
    match miniatureDb.getById miniatureId minisTable with
    | none =>
      ({ status := 404, success := false, message := none,
         error := some "Miniature not found" }, minisTable)
    | some existingMiniature =>
      if existingMiniature.userId ≠ user.id then
        ({ status := 404, success := false, message := none,
           error := some "Miniature not found" }, minisTable)
      else
        ({ status := 200, success := true,
           message := some "Miniature deleted successfully", error := none },
         miniatureDb.deleteMiniature miniatureId minisTable)

/-- The allowed update fields of `PATCH /api/stages/[id]`: the handler
copies only `name`, `description`, `color` and `sortOrder` out of the body,
each when present. -/
structure UpdateStageBody where
  name : Option String
  description : Option String
  color : Option String
  sortOrder : Option Int
deriving Repr, DecidableEq

namespace stagesDb

/-- Effect of `stagesDb.update`'s dynamic update expression on the keyed
stage: a provided `name` passes `validateRequiredString` (and can throw), a
provided `description` passes `validateOptionalString` (trimmed), `color`
and `sortOrder` are written as-is, and `updatedAt` is always refreshed.
`updateSortOrder` above is this function's `{ sortOrder }` specialisation
used by `reorderStages`. -/
def applyUpdate (now : String) (upd : UpdateStageBody) (st : Stage) :
    Except String Stage :=
  let base : Stage :=
    { st with
      description := (upd.description.map trimString).getD st.description,
      color := upd.color.getD st.color,
      sortOrder := upd.sortOrder.getD st.sortOrder,
      updatedAt := now }
  match upd.name with
  | none => .ok base
  | some v =>
    match validateRequiredString v "name" with
    | .error e => .error e
    | .ok nm => .ok { base with name := nm }

/-- `stagesDb.update` in its general form (`UpdateCommand` with
`ReturnValues: ALL_NEW`); as with miniatures, the upsert on a missing key is
never exercised and modelled as a no-op. -/
def updateStage (now : String) (stageId : String) (upd : UpdateStageBody)
    (table : List Stage) : Except String (Option Stage × List Stage) :=
  match table.find? (fun st => st.id == stageId) with
  | none => .ok (none, table)
  | some st =>
    match applyUpdate now upd st with
    | .error e => .error e
    | .ok updated =>
      .ok (some updated, table.map (fun x => if x.id == stageId then updated else x))

end stagesDb

/-- `PATCH /api/stages/[id]` (authenticated handler of
`src/app/api/stages/[id]/route.ts`): 401 without a verified user, 404 for a
missing or foreign stage, 400 when no allowed field is provided, 500 when
the update throws, otherwise 200 with the updated stage.  Returns
(response, new stages table). -/
def stagesIdPATCH (secret : String) (now : Nat) (users : List User)
    (h : AuthHeader) (stageId : String) (nowStr : String)
    (body : UpdateStageBody) (stagesTable : List Stage) :
    StageResponse × List Stage :=
  match getUserFromRequest secret now users h with
  | none =>
    ({ status := 401, success := false, data := none,
       error := some "Authentication required" }, stagesTable)
  | some user =>
    match stagesDb.getById stageId stagesTable with
    | none =>
      ({ status := 404, success := false, data := none,
         error := some "Stage not found" }, stagesTable)
    | some existingStage =>
      if existingStage.userId ≠ user.id then
        ({ status := 404, success := false, data := none,
           error := some "Stage not found" }, stagesTable)
      else if body.name = none ∧ body.description = none ∧ body.color = none ∧
          body.sortOrder = none then
        ({ status := 400, success := false, data := none,
           error := some "No valid updates provided" }, stagesTable)
      else
        match stagesDb.updateStage nowStr stageId body stagesTable with
        | .error _ =>
          ({ status := 500, success := false, data := none,
             error := some "Failed to update stage" }, stagesTable)
        | .ok res =>
          ({ status := 200, success := true, data := res.1, error := none }, res.2)

/-! ## Client-side kanban drag-and-drop reconciler

`src/components/KanbanBoard.tsx` keeps an `optimisticMiniatures` mirror of
the store's `miniatures` plus a transient `dragError`; the store
(`src/stores/miniatureStore.ts`) keeps the authoritative `miniatures` list
and an `error` message.  The PATCH outcome of the persistence call is the
`apiResult` parameter: `.ok m` is a 2xx response carrying the updated
miniature, `.error e` any rejection of the fetch (non-2xx status or network
failure). -/

/-- Local state of the `KanbanBoard` component. -/
structure KanbanState where
  optimistic : List Miniature
  dragError : Option String
deriving Repr, DecidableEq

/-- State of the `useMiniatureStore` zustand store (the fields the drag flow
touches). -/
structure MiniStoreState where
  miniatures : List Miniature
  error : Option String
deriving Repr, DecidableEq

/-- `updateMiniature` of `src/stores/miniatureStore.ts` (the store cited by
the kanban board): clears `error`, PATCHes, and on success replaces the
miniature in the list.  Its `catch` block records the message in
`store.error` and does NOT rethrow, so the returned promise resolves
normally in both cases — the second component is the promise outcome seen
by the caller, which is always `.ok ()`. -/
def storeUpdateMiniature (apiResult : Except String Miniature)
    (store : MiniStoreState) (id : String) : MiniStoreState × Except String Unit :=
  let store := { store with error := none }
  match apiResult with
  | .ok m =>
    ({ store with
       miniatures := store.miniatures.map (fun mini => if mini.id == id then m else mini) },
     .ok ())
  | .error e =>
    ({ store with error := some e }, .ok ())

/-- `handleDragEnd` of `src/components/KanbanBoard.tsx`.  `dest`/`src` are
the drop result's destination/source (droppable stage id and index),
`storeMiniatures` is the `miniatures` prop captured from the store at render
time (used by the catch block's revert), and `apiResult` the PATCH outcome.
Returns the component state and store state after the handler settles. -/
def handleDragEnd (dest : Option (String × Nat)) (src : String × Nat)
    (draggableId : String) (storeMiniatures : List Miniature)
    (comp : KanbanState) (store : MiniStoreState)
    (apiResult : Except String Miniature) : KanbanState × MiniStoreState :=
  let comp := { comp with dragError := none }
  match dest with
  | none => (comp, store)
  | some destination =>
    if destination.1 = src.1 ∧ destination.2 = src.2 then
      (comp, store)
    else
      match comp.optimistic.find? (fun m => m.id == draggableId) with
      | none => (comp, store)
      | some _ =>
        let updated := comp.optimistic.map (fun m =>
          if m.id == draggableId then { m with stageId := destination.1 } else m)
        let comp := { comp with optimistic := updated }
        let afterCall := storeUpdateMiniature apiResult store draggableId
        match afterCall.2 with
        | .ok _ => (comp, afterCall.1)
        | .error _ =>
          ({ optimistic := storeMiniatures,
             dragError := some "Failed to move miniature. Please try again." },
           afterCall.1)

/-- Index of the first occurrence of an id in a list of stage ids (the
position `index` that `orderedStageIds.map((stageId, index) => ...)` pairs
with each id); `none` when absent. -/
def idxOfId (z : String) : List String → Option Nat
  | [] => none
  | c :: rest => if z == c then some 0 else (idxOfId z rest).map (fun j => j + 1)

/-- Closed form of what `stagesDb.reorderStages`, started at position `idx`,
does to a single stage when the id list has no duplicates: a stage whose id
sits at offset `j` of the list gets `sortOrder = (idx + j + 1) * 10` and a
fresh `updatedAt`; other stages are untouched. -/
def reorderAssign (now : String) (ids : List String) (idx : Nat) (s : Stage) : Stage :=
  match idxOfId s.id ids with
  | some j => { s with sortOrder := (((idx + j : Nat) : Int) + 1) * 10, updatedAt := now }
  | none => s

/-! ## General facts about the sorting model -/

instance : IsTotal Stage stageLe := ⟨fun a b => Int.le_total a.sortOrder b.sortOrder⟩

instance : IsTrans Stage stageLe := ⟨fun _ _ _ h1 h2 => le_trans h1 h2⟩

theorem sortStages_sorted (l : List Stage) : (sortStages l).Sorted stageLe :=
  List.sorted_insertionSort stageLe l

theorem sortStages_perm (l : List Stage) : List.Perm (sortStages l) l :=
  List.perm_insertionSort stageLe l

theorem sorted_head_min {l : List Stage} (hs : l.Sorted stageLe) {a : Stage}
    (ha : l.head? = some a) : ∀ s ∈ l, a.sortOrder ≤ s.sortOrder := by
  cases l with
  | nil => cases ha
  | cons b t =>
    cases ha
    intro s hs'
    rcases List.mem_cons.mp hs' with rfl | hmem
    · exact le_refl _
    · exact List.rel_of_sorted_cons hs s hmem

/-! ## Claim theorems -/

/-- C4: there is a stage list and an insert-after target for which
`generateSortOrder` returns a value not below the successor's `sortOrder`:
with neighbours at sortOrder 10 and 11 the gap is 1, the fallback returns
`10 + 10 = 20`, and `20 ≥ 11`, so the new stage would sort after (or collide
with) the stage it was meant to precede. -/
theorem c4_gap_collapse_misorders :
    generateSortOrder
      [ { id := "stage_A", userId := "u1", name := "A", description := "",
          color := "gray", sortOrder := 10, isDefault := false,
          createdAt := "t0", updatedAt := "t0" },
        { id := "stage_B", userId := "u1", name := "B", description := "",
          color := "blue", sortOrder := 11, isDefault := false,
          createdAt := "t0", updatedAt := "t0" } ]
      (some "stage_A") = 20 ∧ ¬ ((20 : Int) < 11) := by
  constructor
  · decide
  · decide

/-- C1: evaluation of the drag-end flow at a failing persistence call.  A
miniature in stage `stage_1` is dragged to `stage_2` and the PATCH rejects;
because `updateMiniature` in `src/stores/miniatureStore.ts` catches the
rejection (recording it only in `store.error`) and does not rethrow, the
`catch` block of `handleDragEnd` never runs: the optimistic stage
assignment stays at `stage_2` instead of reverting to `stage_1`, and the
transient `dragError` message is never set. -/
theorem c1_failed_move_not_reverted :
    handleDragEnd (some ("stage_2", 0)) ("stage_1", 0) "mini_1"
      [ { id := "mini_1", userId := "u1", name := "Mini", description := "",
          stageId := "stage_1", createdAt := "t0", updatedAt := "t0" } ]
      { optimistic :=
          [ { id := "mini_1", userId := "u1", name := "Mini", description := "",
              stageId := "stage_1", createdAt := "t0", updatedAt := "t0" } ],
        dragError := none }
      { miniatures :=
          [ { id := "mini_1", userId := "u1", name := "Mini", description := "",
              stageId := "stage_1", createdAt := "t0", updatedAt := "t0" } ],
        error := none }
      (.error "Failed to update miniature") =
    ({ optimistic :=
         [ { id := "mini_1", userId := "u1", name := "Mini", description := "",
             stageId := "stage_2", createdAt := "t0", updatedAt := "t0" } ],
       dragError := none },
     { miniatures :=
         [ { id := "mini_1", userId := "u1", name := "Mini", description := "",
             stageId := "stage_1", createdAt := "t0", updatedAt := "t0" } ],
       error := some "Failed to update miniature" }) := by
  decide

/-- C2 counterexample: the `/api/stages` collection `GET` handler takes no
request object at all — there is no `Authorization` header for it to
inspect — and on a table holding one stage of the hard-coded development
user it answers 200 with that data, not 401 with none, so the claim that
every listed route answers 401 to an unauthenticated request is false at
route `GET /api/stages`. -/
theorem c2_stages_get_ignores_auth :
    (stagesGET (fun n => "stage_fresh_" ++ toString n) "t1"
      [ { id := "stage_1", userId := "dev-user-1", name := "Queue",
          description := "", color := "gray", sortOrder := 0,
          isDefault := true, createdAt := "t0", updatedAt := "t0" } ]).1 =
    { status := 200, success := true,
      data := some
        [ { id := "stage_1", userId := "dev-user-1", name := "Queue",
            description := "", color := "gray", sortOrder := 0,
            isDefault := true, createdAt := "t0", updatedAt := "t0" } ],
      error := none } ∧ (200 : Nat) ≠ 401 := by
  constructor
  · decide
  · decide

/-- A request whose header is missing, lacks the `Bearer ` prefix, carries an
unparsable token, or carries a token signed with a different secret or
already expired, never authenticates. -/
theorem getUserFromRequest_eq_none_of_bad (secret : String) (now : Nat)
    (users : List User) (h : AuthHeader)
    (hbad : h = .missing ∨ (∃ s, h = .notBearer s) ∨ (∃ s, h = .bearerGarbage s) ∨
      (∃ t, h = .bearerTok t ∧ (t.sig ≠ secret ∨ t.exp ≤ now))) :
    getUserFromRequest secret now users h = none := by
  rcases hbad with rfl | ⟨s, rfl⟩ | ⟨s, rfl⟩ | ⟨t, rfl, hbad⟩
  · rfl
  · rfl
  · rfl
  · show userDb.verifyToken secret now users t = none
    unfold userDb.verifyToken
    rw [if_neg]
    rintro ⟨hsig, hexp⟩
    rcases hbad with hne | hle
    · exact hne hsig
    · exact absurd hexp (not_lt.mpr hle)

/-- C2 (amended): every handler of the claim's protected routes other than
the `/api/stages` collection route — `GET /api/auth/me`,
`GET` and `POST /api/miniatures`, `GET`/`PATCH`/`DELETE
/api/miniatures/[id]`, and `GET`/`PATCH`/`DELETE /api/stages/[id]` —
answers a request whose `Authorization` header is missing, malformed,
wrongly signed, or expired with status 401, no data, and no change to the
stores; the `/api/stages` collection route is the exception refuted
above. -/
theorem c2_protected_routes_401 (secret : String) (now : Nat) (users : List User)
    (h : AuthHeader)
    (hbad : h = .missing ∨ (∃ s, h = .notBearer s) ∨ (∃ s, h = .bearerGarbage s) ∨
      (∃ t, h = .bearerTok t ∧ (t.sig ≠ secret ∨ t.exp ≤ now)))
    (stageId miniatureId : String) (stagesTable : List Stage)
    (minisTable : List Miniature) (freshMiniId : String)
    (freshStageIds : Nat → String) (nowStr : String)
    (body : CreateMiniatureBody) (mupd : UpdateMiniatureBody)
    (supd : UpdateStageBody) :
    (meGET secret now users h).status = 401 ∧ (meGET secret now users h).user = none ∧
    (miniaturesGET secret now users h minisTable).status = 401 ∧
    (miniaturesGET secret now users h minisTable).data = none ∧
    (miniaturesPOST secret now users h freshMiniId freshStageIds nowStr body
        stagesTable minisTable).1.status = 401 ∧
    (miniaturesPOST secret now users h freshMiniId freshStageIds nowStr body
        stagesTable minisTable).1.data = none ∧
    (miniaturesPOST secret now users h freshMiniId freshStageIds nowStr body
        stagesTable minisTable).2 = (stagesTable, minisTable) ∧
    (miniaturesIdGET secret now users h miniatureId minisTable).status = 401 ∧
    (miniaturesIdGET secret now users h miniatureId minisTable).data = none ∧
    (miniaturesIdPATCH secret now users h miniatureId nowStr mupd minisTable).1.status = 401 ∧
    (miniaturesIdPATCH secret now users h miniatureId nowStr mupd minisTable).1.data = none ∧
    (miniaturesIdPATCH secret now users h miniatureId nowStr mupd minisTable).2 = minisTable ∧
    (miniaturesIdDELETE secret now users h miniatureId minisTable).1.status = 401 ∧
    (miniaturesIdDELETE secret now users h miniatureId minisTable).2 = minisTable ∧
    (stagesIdGET secret now users h stageId stagesTable).status = 401 ∧
    (stagesIdGET secret now users h stageId stagesTable).data = none ∧
    (stagesIdPATCH secret now users h stageId nowStr supd stagesTable).1.status = 401 ∧
    (stagesIdPATCH secret now users h stageId nowStr supd stagesTable).1.data = none ∧
    (stagesIdPATCH secret now users h stageId nowStr supd stagesTable).2 = stagesTable ∧
    (stagesIdDELETE secret now users h stageId stagesTable minisTable).1.status = 401 ∧
    (stagesIdDELETE secret now users h stageId stagesTable minisTable).2 = stagesTable := by
  have hnone := getUserFromRequest_eq_none_of_bad secret now users h hbad
  unfold meGET miniaturesGET miniaturesPOST miniaturesIdGET miniaturesIdPATCH
    miniaturesIdDELETE stagesIdGET stagesIdPATCH stagesIdDELETE
  rw [hnone]
  exact ⟨rfl, rfl, rfl, rfl, rfl, rfl, rfl, rfl, rfl, rfl, rfl, rfl, rfl, rfl,
    rfl, rfl, rfl, rfl, rfl, rfl, rfl⟩

/-- C2 witness: the amended theorem applied to a concrete request with a
missing `Authorization` header. -/
theorem c2_protected_routes_401_witness :
    (meGET "secret" 0 [] .missing).status = 401 ∧
    (miniaturesIdPATCH "secret" 0 [] .missing "mini_1" "t1"
      ⟨some "New", none, none, none, none⟩ []).1.status = 401 ∧
    (stagesIdDELETE "secret" 0 [] .missing "stage_1" [] []).2 = ([] : List Stage) := by
  obtain ⟨h1, -, -, -, -, -, -, -, -, h10, -, -, -, -, -, -, -, -, -, -, h21⟩ :=
    c2_protected_routes_401 "secret" 0 [] .missing (Or.inl rfl)
    "stage_1" "mini_1" [] [] "mini_new" (fun n => "stage_fresh_" ++ toString n) "t1"
    { name := "Mini", description := "", stageId := none }
    ⟨some "New", none, none, none, none⟩
    ⟨none, none, none, none⟩
  exact ⟨h1, h10, h21⟩

/-- C9: `toPublicUser` spreads the entire stored record, so it retains every
field — `passwordHash` included — and merely adds `displayName`; hence the
user object in a successful login response (and likewise in register and
`/api/auth/me`, which return the same `toPublicUser` value) carries the
bcrypt password hash rather than only the publicly intended fields. -/
theorem c9_toPublicUser_keeps_passwordHash (secret : String)
    (bcryptCheck : String → String → Bool) (tokenNow : Nat) (users : List User)
    (email password : String) (u : User)
    (hemail : trimString email ≠ "") (hpass : trimString password ≠ "")
    (hfind : userDb.getUserByEmail users (trimString email) = some u)
    (hpw : bcryptCheck (trimString password) u.passwordHash = true) :
    (∀ v : User,
      userDb.toPublicUser v =
        { id := v.id, email := v.email, username := v.username,
          passwordHash := v.passwordHash, createdAt := v.createdAt,
          updatedAt := v.updatedAt, displayName := v.username }) ∧
    (loginPOST secret bcryptCheck tokenNow users email password).status = 200 ∧
    (loginPOST secret bcryptCheck tokenNow users email password).user =
      some (userDb.toPublicUser u) ∧
    (userDb.toPublicUser u).passwordHash = u.passwordHash := by
  have hemail' : email ≠ "" := by
    intro hrfl; exact hemail (by rw [hrfl]; decide)
  have hpass' : password ≠ "" := by
    intro hrfl; exact hpass (by rw [hrfl]; decide)
  have hv1 : validateRequiredString email "email" = .ok (trimString email) := by
    unfold validateRequiredString; rw [if_neg hemail]
  have hv2 : validateRequiredString password "password" = .ok (trimString password) := by
    unfold validateRequiredString; rw [if_neg hpass]
  have hauth : userDb.authenticateUser secret bcryptCheck tokenNow users email password =
      .ok (some (userDb.toPublicUser u, userDb.generateToken secret tokenNow u)) := by
    unfold userDb.authenticateUser
    rw [hv1, hv2]
    show (match userDb.getUserByEmail users (trimString email) with
      | none => Except.ok none
      | some user =>
        if bcryptCheck (trimString password) user.passwordHash then
          Except.ok (some (userDb.toPublicUser user,
            userDb.generateToken secret tokenNow user))
        else Except.ok none) = _
    rw [hfind]
    show (if bcryptCheck (trimString password) u.passwordHash then _ else _ : Except String _) = _
    rw [if_pos hpw]
  refine ⟨fun v => rfl, ?_, ?_, rfl⟩ <;>
    · unfold loginPOST
      rw [if_neg (by simp [hemail', hpass']), hauth]

/-- C9 witness: a concrete successful login whose response user is the full
`toPublicUser` record of the stored user. -/
theorem c9_toPublicUser_keeps_passwordHash_witness :
    (loginPOST "secret" (fun p h => p == "password123" && h == "hashpw") 0
      [⟨"user_1", "alice@example.com", "alice", "hashpw", "t0", "t0"⟩]
      "alice@example.com" "password123").user =
      some (userDb.toPublicUser ⟨"user_1", "alice@example.com", "alice", "hashpw", "t0", "t0"⟩) :=
  (c9_toPublicUser_keeps_passwordHash "secret"
    (fun p h => p == "password123" && h == "hashpw") 0
    [⟨"user_1", "alice@example.com", "alice", "hashpw", "t0", "t0"⟩]
    "alice@example.com" "password123"
    ⟨"user_1", "alice@example.com", "alice", "hashpw", "t0", "t0"⟩
    (by decide) (by decide) (by decide) (by decide)).2.2.1

/-- C8: the token issued for a user is signed with the server secret,
expires seven days after issuance, and carries the user's id, email and
username; verifying it before expiry while the user record still exists
returns that user (as `toPublicUser`), and therefore a `GET /api/auth/me`
request bearing it is answered 200 with that user. -/
theorem c8_token_round_trip (secret : String) (now1 now2 : Nat)
    (users : List User) (u : User)
    (hmem : userDb.getUserById users u.id = some u)
    (hfresh : now2 < now1 + jwtExpiresInSeconds) :
    ((userDb.generateToken secret now1 u).sig = secret ∧
     (userDb.generateToken secret now1 u).exp =
       (userDb.generateToken secret now1 u).iat + jwtExpiresInSeconds ∧
     (userDb.generateToken secret now1 u).userId = u.id ∧
     (userDb.generateToken secret now1 u).email = u.email ∧
     (userDb.generateToken secret now1 u).username = u.username) ∧
    userDb.verifyToken secret now2 users (userDb.generateToken secret now1 u) =
      some (userDb.toPublicUser u) ∧
    meGET secret now2 users (.bearerTok (userDb.generateToken secret now1 u)) =
      { status := 200, success := true, user := some (userDb.toPublicUser u),
        token := none, error := none } := by
  have hverify : userDb.verifyToken secret now2 users
      (userDb.generateToken secret now1 u) = some (userDb.toPublicUser u) := by
    unfold userDb.verifyToken userDb.generateToken
    rw [if_pos ⟨rfl, hfresh⟩]
    show (match userDb.getUserById users u.id with
      | none => none
      | some user => some (userDb.toPublicUser user)) = _
    rw [hmem]
  refine ⟨⟨rfl, rfl, rfl, rfl, rfl⟩, hverify, ?_⟩
  simp only [meGET, getUserFromRequest, hverify]

/-- C8 witness: the round trip at a concrete user, table and clock. -/
theorem c8_token_round_trip_witness :
    userDb.verifyToken "secret" 5 [⟨"user_1", "a@b.c", "alice", "h", "t0", "t0"⟩]
      (userDb.generateToken "secret" 0 ⟨"user_1", "a@b.c", "alice", "h", "t0", "t0"⟩) =
      some (userDb.toPublicUser ⟨"user_1", "a@b.c", "alice", "h", "t0", "t0"⟩) :=
  (c8_token_round_trip "secret" 0 5 [⟨"user_1", "a@b.c", "alice", "h", "t0", "t0"⟩]
    ⟨"user_1", "a@b.c", "alice", "h", "t0", "t0"⟩ (by decide) (by decide)).2.1

/-- C7: for an authenticated deletion request for an existing stage owned by
the requester, the handler answers 400 and leaves the stage table unchanged
whenever the stage still holds at least one of the user's miniatures or is a
default stage; when the stage is empty and not default the deletion succeeds
with 200, the stage is gone from the table, and every other stage is kept. -/
theorem c7_stage_deletion (secret : String) (now : Nat) (users : List User)
    (h : AuthHeader) (stageId : String) (stagesTable : List Stage)
    (minisTable : List Miniature) (user : PublicUser) (st : Stage)
    (hauth : getUserFromRequest secret now users h = some user)
    (hfound : stagesDb.getById stageId stagesTable = some st)
    (howner : st.userId = user.id) :
    ((miniatureDb.getAllInStage user.id stageId minisTable).length > 0 ∨
        st.isDefault = true →
      (stagesIdDELETE secret now users h stageId stagesTable minisTable).1.status = 400 ∧
      (stagesIdDELETE secret now users h stageId stagesTable minisTable).2 = stagesTable) ∧
    (miniatureDb.getAllInStage user.id stageId minisTable = [] ∧ st.isDefault = false →
      (stagesIdDELETE secret now users h stageId stagesTable minisTable).1.status = 200 ∧
      (stagesIdDELETE secret now users h stageId stagesTable minisTable).1.success = true ∧
      (∀ s ∈ (stagesIdDELETE secret now users h stageId stagesTable minisTable).2,
        s.id ≠ stageId) ∧
      (∀ s ∈ stagesTable, s.id ≠ stageId →
        s ∈ (stagesIdDELETE secret now users h stageId stagesTable minisTable).2)) := by
  have hne : ¬ (st.userId ≠ user.id) := fun hcon => hcon howner
  constructor
  · intro hbad
    simp only [stagesIdDELETE, hauth, hfound]
    rw [if_neg hne]
    rcases Nat.lt_or_ge 0 (miniatureDb.getAllInStage user.id stageId minisTable).length
      with hlen | hlen
    · rw [if_pos hlen]
      exact ⟨rfl, rfl⟩
    · have hlen0 : ¬ ((miniatureDb.getAllInStage user.id stageId minisTable).length > 0) := by
        omega
      rw [if_neg hlen0]
      have hdef : st.isDefault = true := by
        rcases hbad with hl | hd
        · exact absurd hl hlen0
        · exact hd
      rw [if_pos hdef]
      exact ⟨rfl, rfl⟩
  · rintro ⟨hempty, hdef⟩
    simp only [stagesIdDELETE, hauth, hfound]
    rw [if_neg hne]
    have hlen0 : ¬ ((miniatureDb.getAllInStage user.id stageId minisTable).length > 0) := by
      rw [hempty]; simp
    rw [if_neg hlen0, if_neg (by rw [hdef]; exact Bool.false_ne_true)]
    refine ⟨rfl, rfl, ?_, ?_⟩
    · intro s hsmem
      have hm := List.mem_filter.mp hsmem
      simpa using hm.2
    · intro s hsmem hsid
      exact List.mem_filter.mpr ⟨hsmem, by simpa using hsid⟩

/-- C7 witness: a concrete authenticated deletion of an empty non-default
stage succeeds with 200. -/
theorem c7_stage_deletion_witness :
    (stagesIdDELETE "secret" 1 [⟨"user_1", "a@b.c", "alice", "h", "t0", "t0"⟩]
      (.bearerTok (userDb.generateToken "secret" 0
        ⟨"user_1", "a@b.c", "alice", "h", "t0", "t0"⟩))
      "stage_X"
      [⟨"stage_X", "user_1", "Extra", "", "red", 80, false, "t0", "t0"⟩]
      []).1.status = 200 :=
  ((c7_stage_deletion "secret" 1 [⟨"user_1", "a@b.c", "alice", "h", "t0", "t0"⟩]
    (.bearerTok (userDb.generateToken "secret" 0
      ⟨"user_1", "a@b.c", "alice", "h", "t0", "t0"⟩))
    "stage_X"
    [⟨"stage_X", "user_1", "Extra", "", "red", 80, false, "t0", "t0"⟩]
    []
    (userDb.toPublicUser ⟨"user_1", "a@b.c", "alice", "h", "t0", "t0"⟩)
    ⟨"stage_X", "user_1", "Extra", "", "red", 80, false, "t0", "t0"⟩
    (by decide) (by decide) (by decide)).2 ⟨rfl, rfl⟩).1

/-- When the users table already holds a record whose (stored, lowercased)
email or username equals the lowercased trimmed request field, `createUser`
throws: every path either fails an earlier validation or reaches the
duplicate checks, which precede the `PutCommand`. -/
theorem createUser_duplicate_error (secret : String) (hash : String → String)
    (freshId now : String) (tokenNow : Nat) (users : List User)
    (body : RegisterRequest)
    (hdup : ∃ u ∈ users, u.email = toLowerString (trimString body.email) ∨
      u.username = toLowerString (trimString body.username)) :
    ∃ msg, userDb.createUser secret hash freshId now tokenNow users body =
      .error msg := by
  by_cases hc1 : trimString body.email = ""
  · exact ⟨_, by unfold userDb.createUser validateRequiredString; rw [if_pos hc1]⟩
  have h1 : validateRequiredString body.email "email" = .ok (trimString body.email) := by
    unfold validateRequiredString; rw [if_neg hc1]
  by_cases hc2 : trimString body.username = ""
  · exact ⟨_, by unfold userDb.createUser validateRequiredString; rw [if_neg hc1, if_pos hc2]⟩
  have h2 : validateRequiredString body.username "username" = .ok (trimString body.username) := by
    unfold validateRequiredString; rw [if_neg hc2]
  by_cases hc3 : trimString body.password = ""
  · exact ⟨_, by unfold userDb.createUser validateRequiredString; rw [if_neg hc1, if_neg hc2, if_pos hc3]⟩
  have h3 : validateRequiredString body.password "password" = .ok (trimString body.password) := by
    unfold validateRequiredString; rw [if_neg hc3]
  cases h4 : validateEmail (trimString body.email) with
  | some e4 => exact ⟨e4, by
      unfold userDb.createUser; simp only [h1, h2, h3, h4]⟩
  | none =>
  cases h5 : validateUsername (trimString body.username) with
  | some e5 => exact ⟨e5, by
      unfold userDb.createUser; simp only [h1, h2, h3, h4, h5]⟩
  | none =>
  cases h6 : validatePassword (trimString body.password) with
  | some e6 => exact ⟨e6, by
      unfold userDb.createUser; simp only [h1, h2, h3, h4, h5, h6]⟩
  | none =>
  by_cases hs1 : (userDb.getUserByEmail users (trimString body.email)).isSome
  · exact ⟨"An account with this email already exists", by
      unfold userDb.createUser
      simp only [h1, h2, h3, h4, h5, h6]
      rw [if_pos hs1]⟩
  by_cases hs2 : (userDb.getUserByUsername users (trimString body.username)).isSome
  · exact ⟨"This username is already taken", by
      unfold userDb.createUser
      simp only [h1, h2, h3, h4, h5, h6]
      rw [if_neg hs1, if_pos hs2]⟩
  exfalso
  rw [Option.not_isSome_iff_eq_none] at hs1 hs2
  unfold userDb.getUserByEmail at hs1
  unfold userDb.getUserByUsername at hs2
  rw [List.find?_eq_none] at hs1 hs2
  rcases hdup with ⟨u, hu, he | hn⟩
  · exact hs1 u hu (by simp [he])
  · exact hs2 u hu (by simp [hn])

/-- C6: a registration request whose trimmed, lowercased email or username
already belongs to a stored user is answered 400 with no user or token in
the response, and the users table is unchanged — the duplicate check
precedes the `PutCommand`, so no record is written. -/
theorem c6_register_duplicate_rejected (secret : String) (hash : String → String)
    (freshId now : String) (tokenNow : Nat) (users : List User)
    (body : RegisterRequest)
    (hdup : ∃ u ∈ users, u.email = toLowerString (trimString body.email) ∨
      u.username = toLowerString (trimString body.username)) :
    (registerPOST secret hash freshId now tokenNow users body).1.status = 400 ∧
    (registerPOST secret hash freshId now tokenNow users body).2 = users ∧
    (registerPOST secret hash freshId now tokenNow users body).1.user = none ∧
    (registerPOST secret hash freshId now tokenNow users body).1.token = none := by
  unfold registerPOST
  split
  · exact ⟨rfl, rfl, rfl, rfl⟩
  · obtain ⟨msg, hmsg⟩ :=
      createUser_duplicate_error secret hash freshId now tokenNow users body hdup
    rw [hmsg]
    exact ⟨rfl, rfl, rfl, rfl⟩

/-- C6 witness: registering a second account with the email of an existing
user fails with 400 and leaves the table as it was. -/
theorem c6_register_duplicate_rejected_witness :
    (registerPOST "secret" (fun p => "H" ++ p) "user_2" "t1" 0
      [⟨"user_1", "alice@example.com", "alice", "h", "t0", "t0"⟩]
      ⟨"Alice@example.com", "alice2", "password123"⟩).1.status = 400 ∧
    (registerPOST "secret" (fun p => "H" ++ p) "user_2" "t1" 0
      [⟨"user_1", "alice@example.com", "alice", "h", "t0", "t0"⟩]
      ⟨"Alice@example.com", "alice2", "password123"⟩).2 =
      [⟨"user_1", "alice@example.com", "alice", "h", "t0", "t0"⟩] := by
  have h := c6_register_duplicate_rejected "secret" (fun p => "H" ++ p) "user_2" "t1" 0
    [⟨"user_1", "alice@example.com", "alice", "h", "t0", "t0"⟩]
    ⟨"Alice@example.com", "alice2", "password123"⟩
    ⟨⟨"user_1", "alice@example.com", "alice", "h", "t0", "t0"⟩, by decide, by decide⟩
  exact ⟨h.1, h.2.1⟩

/-- Lower bound and element bounds for a left fold with `max`. -/
theorem foldl_max_bounds (l : List Int) (acc : Int) :
    acc ≤ l.foldl max acc ∧ ∀ x ∈ l, x ≤ l.foldl max acc := by
  induction l generalizing acc with
  | nil => exact ⟨le_refl _, by intro x hx; cases hx⟩
  | cons y t ih =>
    refine ⟨?_, ?_⟩
    · exact le_trans (le_max_left acc y) (ih (max acc y)).1
    · intro x hx
      rcases List.mem_cons.mp hx with rfl | hxt
      · exact le_trans (le_max_right acc x) (ih (max acc x)).1
      · exact (ih (max acc y)).2 x hxt

/-- A left fold with `max` yields either the seed or a list element. -/
theorem foldl_max_mem (l : List Int) (acc : Int) :
    l.foldl max acc = acc ∨ l.foldl max acc ∈ l := by
  induction l generalizing acc with
  | nil => exact Or.inl rfl
  | cons y t ih =>
    rcases ih (max acc y) with h | h
    · rw [List.foldl_cons, h]
      rcases max_choice acc y with hm | hm
      · exact Or.inl hm
      · right; rw [hm]; exact List.mem_cons_self _ _
    · exact Or.inr (List.mem_cons_of_mem _ h)

/-- On a non-empty list, `maxSortOrder` is an upper bound of the list. -/
theorem maxSortOrder_is_ub {l : List Int} : ∀ x ∈ l, x ≤ maxSortOrder l := by
  cases l with
  | nil => intro x hx; cases hx
  | cons y t =>
    intro x hx
    rcases List.mem_cons.mp hx with rfl | hxt
    · exact (foldl_max_bounds t x).1
    · exact (foldl_max_bounds t y).2 x hxt

/-- On a non-empty list, `maxSortOrder` is an element of the list. -/
theorem maxSortOrder_is_mem {l : List Int} (h : l ≠ []) : maxSortOrder l ∈ l := by
  cases l with
  | nil => exact absurd rfl h
  | cons y t =>
    show t.foldl max y ∈ y :: t
    rcases foldl_max_mem t y with heq | hmem
    · rw [heq]; exact List.mem_cons_self _ _
    · exact List.mem_cons_of_mem _ hmem

/-- C3: on a non-empty stage list the allocator returns `max sortOrder + 10`
when given no insert-after target or an unknown one (where `maxSortOrder` is
genuinely the maximum: an upper bound and an element); when the target is
found with a successor in the sorted list leaving a gap greater than 1, the
result lies strictly between the two neighbouring sort orders; and when that
gap is at most 1 it falls back to the insert-after stage's
`sortOrder + 10`. -/
theorem c3_generateSortOrder_spec (stages : List Stage) (hne : stages ≠ []) :
    (∀ x ∈ stages.map (fun s => s.sortOrder),
        x ≤ maxSortOrder (stages.map (fun s => s.sortOrder))) ∧
    maxSortOrder (stages.map (fun s => s.sortOrder)) ∈
      stages.map (fun s => s.sortOrder) ∧
    generateSortOrder stages none =
      maxSortOrder (stages.map (fun s => s.sortOrder)) + 10 ∧
    (∀ tid, stages.find? (fun s => s.id == tid) = none →
      generateSortOrder stages (some tid) =
        maxSortOrder (stages.map (fun s => s.sortOrder)) + 10) ∧
    (∀ tid prev next, stages.find? (fun s => s.id == tid) = some prev →
      (sortStages stages)[(sortStages stages).findIdx (fun s => s.id == tid) + 1]? =
        some next →
      ((next.sortOrder - prev.sortOrder > 1 →
        prev.sortOrder < generateSortOrder stages (some tid) ∧
        generateSortOrder stages (some tid) < next.sortOrder) ∧
       (next.sortOrder - prev.sortOrder ≤ 1 →
        generateSortOrder stages (some tid) = prev.sortOrder + 10))) := by
  have hlen : ¬ (stages.length = 0) := by
    intro h0; exact hne (List.length_eq_zero.mp h0)
  have hmapne : stages.map (fun s => s.sortOrder) ≠ [] := by
    intro h0
    exact hne (List.map_eq_nil_iff.mp h0)
  refine ⟨maxSortOrder_is_ub, maxSortOrder_is_mem hmapne, ?_, ?_, ?_⟩
  · unfold generateSortOrder
    rw [if_neg hlen]
  · intro tid hfind
    unfold generateSortOrder
    rw [if_neg hlen]
    simp only [hfind]
  · intro tid prev next hfind hnext
    have hgen : generateSortOrder stages (some tid) =
        (if next.sortOrder - prev.sortOrder > 1 then
          prev.sortOrder + (next.sortOrder - prev.sortOrder) / 2
        else prev.sortOrder + 10) := by
      unfold generateSortOrder
      rw [if_neg hlen]
      simp only [hfind, hnext]
    constructor
    · intro hgap
      rw [hgen, if_pos hgap]
      constructor
      · omega
      · omega
    · intro hgap
      rw [hgen, if_neg (by omega)]

/-- C3 witness: the allocator evaluated on a concrete three-stage list in
each of the claim's situations. -/
theorem c3_generateSortOrder_spec_witness :
    generateSortOrder
      [ ⟨"stage_A", "u1", "A", "", "gray", 10, false, "t0", "t0"⟩,
        ⟨"stage_B", "u1", "B", "", "blue", 20, false, "t0", "t0"⟩,
        ⟨"stage_C", "u1", "C", "", "red", 30, false, "t0", "t0"⟩ ] none = 40 ∧
    generateSortOrder
      [ ⟨"stage_A", "u1", "A", "", "gray", 10, false, "t0", "t0"⟩,
        ⟨"stage_B", "u1", "B", "", "blue", 20, false, "t0", "t0"⟩,
        ⟨"stage_C", "u1", "C", "", "red", 30, false, "t0", "t0"⟩ ]
      (some "stage_missing") = 40 ∧
    (10 : Int) < generateSortOrder
      [ ⟨"stage_A", "u1", "A", "", "gray", 10, false, "t0", "t0"⟩,
        ⟨"stage_B", "u1", "B", "", "blue", 20, false, "t0", "t0"⟩,
        ⟨"stage_C", "u1", "C", "", "red", 30, false, "t0", "t0"⟩ ]
      (some "stage_A") ∧
    generateSortOrder
      [ ⟨"stage_A", "u1", "A", "", "gray", 10, false, "t0", "t0"⟩,
        ⟨"stage_B", "u1", "B", "", "blue", 20, false, "t0", "t0"⟩,
        ⟨"stage_C", "u1", "C", "", "red", 30, false, "t0", "t0"⟩ ]
      (some "stage_A") < 20 := by
  have h := c3_generateSortOrder_spec
    [ ⟨"stage_A", "u1", "A", "", "gray", 10, false, "t0", "t0"⟩,
      ⟨"stage_B", "u1", "B", "", "blue", 20, false, "t0", "t0"⟩,
      ⟨"stage_C", "u1", "C", "", "red", 30, false, "t0", "t0"⟩ ]
    (by decide)
  have hbetween := (h.2.2.2.2 "stage_A"
    ⟨"stage_A", "u1", "A", "", "gray", 10, false, "t0", "t0"⟩
    ⟨"stage_B", "u1", "B", "", "blue", 20, false, "t0", "t0"⟩
    (by decide) (by decide)).1 (by decide)
  have hmax : maxSortOrder
      (([ ⟨"stage_A", "u1", "A", "", "gray", 10, false, "t0", "t0"⟩,
          ⟨"stage_B", "u1", "B", "", "blue", 20, false, "t0", "t0"⟩,
          ⟨"stage_C", "u1", "C", "", "red", 30, false, "t0", "t0"⟩ ] : List Stage).map
        (fun s => s.sortOrder)) = 30 := by decide
  exact ⟨by rw [h.2.2.1, hmax]; decide,
    by rw [h.2.2.2.1 "stage_missing" (by decide), hmax]; decide,
    hbetween.1, hbetween.2⟩

/-- C10: `POST /api/miniatures` ignores any `stageId` sent in the body, and
(for an authenticated request with a valid name) assigns the new miniature
the id of the first — lowest `sortOrder` — stage of the user's sorted stage
list; when the user has no stages, the default stage set is initialised
first and the head of the resulting sorted list is used.  The id hypotheses
(`trimString id = id`, `id ≠ ""`) record that stage ids carry no surrounding
whitespace and are non-empty, as the `prefix_timestamp_random` generator
guarantees. -/
theorem c10_miniature_initial_stage (secret : String) (now : Nat)
    (users : List User) (h : AuthHeader) (freshMiniId : String)
    (freshStageIds : Nat → String) (nowStr : String)
    (body : CreateMiniatureBody) (stagesTable : List Stage)
    (minisTable : List Miniature) (user : PublicUser)
    (hauth : getUserFromRequest secret now users h = some user)
    (hname : trimString body.name ≠ "")
    (hname2 : trimString (trimString body.name) ≠ "") :
    (∀ sid : Option String,
      miniaturesPOST secret now users h freshMiniId freshStageIds nowStr
        ⟨body.name, body.description, sid⟩ stagesTable minisTable =
      miniaturesPOST secret now users h freshMiniId freshStageIds nowStr
        body stagesTable minisTable) ∧
    (∀ first rest, stagesDb.getAllForUser user.id stagesTable = first :: rest →
      trimString first.id = first.id → first.id ≠ "" →
      (miniaturesPOST secret now users h freshMiniId freshStageIds nowStr
        body stagesTable minisTable).1.status = 201 ∧
      (∃ m, (miniaturesPOST secret now users h freshMiniId freshStageIds nowStr
          body stagesTable minisTable).1.data = some m ∧
        m.stageId = first.id ∧ m.userId = user.id ∧
        (miniaturesPOST secret now users h freshMiniId freshStageIds nowStr
          body stagesTable minisTable).2.2 = minisTable ++ [m]) ∧
      (∀ s ∈ first :: rest, first.sortOrder ≤ s.sortOrder)) ∧
    (stagesDb.getAllForUser user.id stagesTable = [] →
      (∀ i, trimString (freshStageIds i) = freshStageIds i) →
      (∀ i, freshStageIds i ≠ "") →
      (miniaturesPOST secret now users h freshMiniId freshStageIds nowStr
        body stagesTable minisTable).1.status = 201 ∧
      (miniaturesPOST secret now users h freshMiniId freshStageIds nowStr
        body stagesTable minisTable).2.1 =
        (stagesDb.initDefaultStages freshStageIds nowStr user.id stagesTable).2 ∧
      (∃ st m,
        (stagesDb.getAllForUser user.id
          (miniaturesPOST secret now users h freshMiniId freshStageIds nowStr
            body stagesTable minisTable).2.1).head? = some st ∧
        (miniaturesPOST secret now users h freshMiniId freshStageIds nowStr
          body stagesTable minisTable).1.data = some m ∧
        m.stageId = st.id ∧
        (∀ s ∈ stagesDb.getAllForUser user.id
          (miniaturesPOST secret now users h freshMiniId freshStageIds nowStr
            body stagesTable minisTable).2.1, st.sortOrder ≤ s.sortOrder))) := by
  refine ⟨fun sid => rfl, ?_, ?_⟩
  · intro first rest hA hAid hAne
    have hcreate : miniatureDb.create freshMiniId nowStr user.id
        (trimString body.name) (trimString body.description) first.id minisTable =
        .ok ({ id := freshMiniId, userId := user.id,
               name := trimString (trimString body.name),
               description := trimString (trimString body.description),
               stageId := trimString first.id, createdAt := nowStr,
               updatedAt := nowStr },
             minisTable ++
               [{ id := freshMiniId, userId := user.id,
                  name := trimString (trimString body.name),
                  description := trimString (trimString body.description),
                  stageId := trimString first.id, createdAt := nowStr,
                  updatedAt := nowStr }]) := by
      unfold miniatureDb.create validateRequiredString
      rw [if_neg hname2, if_neg (show ¬ (trimString first.id = "") by
        rw [hAid]; exact hAne)]
    have hR : miniaturesPOST secret now users h freshMiniId freshStageIds nowStr
        body stagesTable minisTable =
        ({ status := 201, success := true,
           data := some ({ id := freshMiniId, userId := user.id,
                           name := trimString (trimString body.name),
                           description := trimString (trimString body.description),
                           stageId := trimString first.id, createdAt := nowStr,
                           updatedAt := nowStr : Miniature }),
           error := none },
         stagesTable,
         minisTable ++
           [{ id := freshMiniId, userId := user.id,
              name := trimString (trimString body.name),
              description := trimString (trimString body.description),
              stageId := trimString first.id, createdAt := nowStr,
              updatedAt := nowStr }]) := by
      unfold miniaturesPOST
      simp only [hauth, hA]
      rw [if_neg hname]
      rw [if_neg (show ¬ ((first :: rest).length = 0) by simp)]
      simp only [List.head?_cons, Option.map_some', Option.getD_some]
      rw [if_neg hAne, hcreate]
    have hsortedA : (first :: rest).Sorted stageLe := by
      have hs := sortStages_sorted (stagesTable.filter (fun s => s.userId == user.id))
      rw [show sortStages (stagesTable.filter (fun s => s.userId == user.id)) =
        first :: rest from hA] at hs
      exact hs
    refine ⟨by rw [hR], ⟨_, by rw [hR], by rw [hAid], rfl, by rw [hR]⟩, ?_⟩
    · intro s hmem
      exact sorted_head_min hsortedA rfl s hmem
  · intro hB hBid hBne
    have hfilterTable : stagesTable.filter (fun s => s.userId == user.id) = [] := by
      have hB' : sortStages (stagesTable.filter (fun s => s.userId == user.id)) = [] := hB
      have hp := sortStages_perm (stagesTable.filter (fun s => s.userId == user.id))
      rw [hB'] at hp
      exact (hp.symm).eq_nil
    have hcreatedAll : ∀ x ∈ (DEFAULT_STAGE_TEMPLATES.enum.map (fun p =>
        { id := freshStageIds p.1, userId := user.id, name := p.2.name,
          description := p.2.description, color := p.2.color,
          sortOrder := p.2.sortOrder, isDefault := p.2.isDefault,
          createdAt := nowStr, updatedAt := nowStr : Stage })),
        (x.userId == user.id) = true := by
      intro x hx
      rcases List.mem_map.mp hx with ⟨p, _, rfl⟩
      exact beq_self_eq_true _
    have hgetAfter : stagesDb.getAllForUser user.id
        (stagesDb.initDefaultStages freshStageIds nowStr user.id stagesTable).2 =
        sortStages (DEFAULT_STAGE_TEMPLATES.enum.map (fun p =>
          { id := freshStageIds p.1, userId := user.id, name := p.2.name,
            description := p.2.description, color := p.2.color,
            sortOrder := p.2.sortOrder, isDefault := p.2.isDefault,
            createdAt := nowStr, updatedAt := nowStr : Stage })) := by
      unfold stagesDb.getAllForUser stagesDb.initDefaultStages sortStages
      rw [List.filter_append, hfilterTable, List.filter_eq_self.mpr hcreatedAll]
      rfl
    cases hsc : sortStages (DEFAULT_STAGE_TEMPLATES.enum.map (fun p =>
        { id := freshStageIds p.1, userId := user.id, name := p.2.name,
          description := p.2.description, color := p.2.color,
          sortOrder := p.2.sortOrder, isDefault := p.2.isDefault,
          createdAt := nowStr, updatedAt := nowStr : Stage })) with
    | nil =>
      exfalso
      have hlen := (sortStages_perm (DEFAULT_STAGE_TEMPLATES.enum.map (fun p =>
        { id := freshStageIds p.1, userId := user.id, name := p.2.name,
          description := p.2.description, color := p.2.color,
          sortOrder := p.2.sortOrder, isDefault := p.2.isDefault,
          createdAt := nowStr, updatedAt := nowStr : Stage }))).length_eq
      rw [hsc] at hlen
      simp [List.enum_length, DEFAULT_STAGE_TEMPLATES] at hlen
    | cons st t =>
      have hstmem : st ∈ DEFAULT_STAGE_TEMPLATES.enum.map (fun p =>
          { id := freshStageIds p.1, userId := user.id, name := p.2.name,
            description := p.2.description, color := p.2.color,
            sortOrder := p.2.sortOrder, isDefault := p.2.isDefault,
            createdAt := nowStr, updatedAt := nowStr : Stage }) := by
        have := (sortStages_perm (DEFAULT_STAGE_TEMPLATES.enum.map (fun p =>
          { id := freshStageIds p.1, userId := user.id, name := p.2.name,
            description := p.2.description, color := p.2.color,
            sortOrder := p.2.sortOrder, isDefault := p.2.isDefault,
            createdAt := nowStr, updatedAt := nowStr : Stage }))).mem_iff (a := st)
        rw [hsc] at this
        exact this.mp (List.mem_cons_self _ _)
      obtain ⟨p, _, hpeq⟩ := List.mem_map.mp hstmem
      have hstid : st.id = freshStageIds p.1 := by rw [← hpeq]
      have hstne : st.id ≠ "" := by rw [hstid]; exact hBne p.1
      have hsttrim : trimString st.id = st.id := by rw [hstid]; exact hBid p.1
      have hcreate : miniatureDb.create freshMiniId nowStr user.id
          (trimString body.name) (trimString body.description) st.id minisTable =
          .ok ({ id := freshMiniId, userId := user.id,
                 name := trimString (trimString body.name),
                 description := trimString (trimString body.description),
                 stageId := trimString st.id, createdAt := nowStr,
                 updatedAt := nowStr },
               minisTable ++
                 [{ id := freshMiniId, userId := user.id,
                    name := trimString (trimString body.name),
                    description := trimString (trimString body.description),
                    stageId := trimString st.id, createdAt := nowStr,
                    updatedAt := nowStr }]) := by
        unfold miniatureDb.create validateRequiredString
        rw [if_neg hname2, if_neg (show ¬ (trimString st.id = "") by
          rw [hsttrim]; exact hstne)]
      have hR : miniaturesPOST secret now users h freshMiniId freshStageIds nowStr
          body stagesTable minisTable =
          ({ status := 201, success := true,
             data := some ({ id := freshMiniId, userId := user.id,
                             name := trimString (trimString body.name),
                             description := trimString (trimString body.description),
                             stageId := trimString st.id, createdAt := nowStr,
                             updatedAt := nowStr : Miniature }),
             error := none },
           (stagesDb.initDefaultStages freshStageIds nowStr user.id stagesTable).2,
           minisTable ++
             [{ id := freshMiniId, userId := user.id,
                name := trimString (trimString body.name),
                description := trimString (trimString body.description),
                stageId := trimString st.id, createdAt := nowStr,
                updatedAt := nowStr }]) := by
        unfold miniaturesPOST
        simp only [hauth, hB]
        rw [if_neg hname]
        rw [if_pos (show ([] : List Stage).length = 0 from rfl)]
        rw [show stagesDb.getAllForUser user.id
          (stagesDb.initDefaultStages freshStageIds nowStr user.id stagesTable).2 =
          st :: t from hgetAfter.trans hsc]
        simp only [List.head?_cons, Option.map_some', Option.getD_some]
        rw [if_neg hstne, hcreate]
      have hget2 : stagesDb.getAllForUser user.id
          (miniaturesPOST secret now users h freshMiniId freshStageIds nowStr
            body stagesTable minisTable).2.1 = st :: t := by
        rw [hR]
        exact hgetAfter.trans hsc
      have hsorted2 : (st :: t).Sorted stageLe := by
        have hs := sortStages_sorted (DEFAULT_STAGE_TEMPLATES.enum.map (fun p =>
          { id := freshStageIds p.1, userId := user.id, name := p.2.name,
            description := p.2.description, color := p.2.color,
            sortOrder := p.2.sortOrder, isDefault := p.2.isDefault,
            createdAt := nowStr, updatedAt := nowStr : Stage }))
        rw [hsc] at hs
        exact hs
      refine ⟨by rw [hR], by rw [hR], st, _, ?_, by rw [hR], hsttrim, ?_⟩
      · rw [hget2]
        exact List.head?_cons
      · intro s hmem
        rw [hget2] at hmem
        exact sorted_head_min hsorted2 rfl s hmem

/-- C10 witness: a concrete authenticated creation request that even carries
a `stageId` of its own is assigned the id of the user's first stage. -/
theorem c10_miniature_initial_stage_witness :
    (miniaturesPOST "secret" 1 [⟨"user_1", "a@b.c", "alice", "h", "t0", "t0"⟩]
      (.bearerTok (userDb.generateToken "secret" 0
        ⟨"user_1", "a@b.c", "alice", "h", "t0", "t0"⟩))
      "mini_1" (fun n => "stage_fresh_" ++ toString n) "t1"
      ⟨"Space Marine", "fresh paint", some "stage_evil"⟩
      [⟨"stage_q", "user_1", "Queue", "", "gray", 0, true, "t0", "t0"⟩]
      []).1.status = 201 ∧
    (∃ m, (miniaturesPOST "secret" 1 [⟨"user_1", "a@b.c", "alice", "h", "t0", "t0"⟩]
      (.bearerTok (userDb.generateToken "secret" 0
        ⟨"user_1", "a@b.c", "alice", "h", "t0", "t0"⟩))
      "mini_1" (fun n => "stage_fresh_" ++ toString n) "t1"
      ⟨"Space Marine", "fresh paint", some "stage_evil"⟩
      [⟨"stage_q", "user_1", "Queue", "", "gray", 0, true, "t0", "t0"⟩]
      []).1.data = some m ∧ m.stageId = "stage_q") := by
  have hc10 := c10_miniature_initial_stage "secret" 1
    [⟨"user_1", "a@b.c", "alice", "h", "t0", "t0"⟩]
    (.bearerTok (userDb.generateToken "secret" 0
      ⟨"user_1", "a@b.c", "alice", "h", "t0", "t0"⟩))
    "mini_1" (fun n => "stage_fresh_" ++ toString n) "t1"
    ⟨"Space Marine", "fresh paint", some "stage_evil"⟩
    [⟨"stage_q", "user_1", "Queue", "", "gray", 0, true, "t0", "t0"⟩]
    []
    (userDb.toPublicUser ⟨"user_1", "a@b.c", "alice", "h", "t0", "t0"⟩)
    (by decide) (by decide) (by decide)
  have hbranch := hc10.2.1 ⟨"stage_q", "user_1", "Queue", "", "gray", 0, true, "t0", "t0"⟩
    [] (by decide) (by decide) (by decide)
  obtain ⟨m, hm1, hm2, _, _⟩ := hbranch.2.1
  exact ⟨hbranch.1, m, hm1, hm2⟩

/-- An id that is not in the list has no index. -/
theorem idxOfId_eq_none_of_not_mem {z : String} {l : List String} (h : z ∉ l) :
    idxOfId z l = none := by
  induction l with
  | nil => rfl
  | cons c rest ih =>
    have hzc : ¬ (z == c) = true := by
      simp only [beq_iff_eq]
      intro hrfl; exact h (hrfl ▸ List.mem_cons_self _ _)
    have hzr : z ∉ rest := fun hm => h (List.mem_cons_of_mem _ hm)
    unfold idxOfId
    rw [if_neg hzc, ih hzr]
    rfl

/-- An id in the list has an index. -/
theorem idxOfId_isSome_of_mem {z : String} {l : List String} (h : z ∈ l) :
    ∃ j, idxOfId z l = some j := by
  induction l with
  | nil => cases h
  | cons c rest ih =>
    by_cases hzc : z = c
    · exact ⟨0, by unfold idxOfId; rw [if_pos (by simp [hzc])]⟩
    · have hzr : z ∈ rest := by
        rcases List.mem_cons.mp h with hrfl | hm
        · exact absurd hrfl hzc
        · exact hm
      obtain ⟨j, hj⟩ := ih hzr
      exact ⟨j + 1, by unfold idxOfId; rw [if_neg (by simp [hzc]), hj]; rfl⟩

/-- The element at the index found for `z` is `z` itself. -/
theorem idxOfId_get {z : String} {l : List String} {j : Nat}
    (h : idxOfId z l = some j) : ∃ hlt : j < l.length, l.get ⟨j, hlt⟩ = z := by
  induction l generalizing j with
  | nil => cases h
  | cons c rest ih =>
    by_cases hzc : (z == c) = true
    · unfold idxOfId at h
      rw [if_pos hzc] at h
      cases h
      exact ⟨Nat.succ_pos _, (beq_iff_eq.mp hzc).symm⟩
    · unfold idxOfId at h
      rw [if_neg hzc] at h
      obtain ⟨j', hj', rfl⟩ := Option.map_eq_some'.mp h
      obtain ⟨hlt, hget⟩ := ih hj'
      exact ⟨Nat.succ_lt_succ hlt, hget⟩

/-- In a duplicate-free list, the index found for the element at position
`i` is `i` itself. -/
theorem idxOfId_get_self {l : List String} (hnd : l.Nodup) (i : Fin l.length) :
    idxOfId (l.get i) l = some i.val := by
  induction l with
  | nil => exact absurd i.isLt (by simp)
  | cons c rest ih =>
    rcases i with ⟨iv, hi⟩
    cases iv with
    | zero =>
      unfold idxOfId
      rw [if_pos (by simp)]
    | succ k =>
      have hk : k < rest.length := Nat.lt_of_succ_lt_succ hi
      have hmem : rest.get ⟨k, hk⟩ ∈ rest := List.get_mem _ _ _
      have hne : ¬ ((c :: rest).get ⟨k + 1, hi⟩ == c) = true := by
        show ¬ (rest.get ⟨k, hk⟩ == c) = true
        simp only [beq_iff_eq]
        intro hrfl
        exact (List.nodup_cons.mp hnd).1 (hrfl ▸ hmem)
      unfold idxOfId
      rw [if_neg hne]
      have := ih (List.nodup_cons.mp hnd).2 ⟨k, hk⟩
      show (idxOfId (rest.get ⟨k, hk⟩) rest).map _ = _
      rw [this]
      rfl

/-- `reorderAssign` never changes a stage's id. -/
theorem reorderAssign_id (now : String) (ids : List String) (idx : Nat) (s : Stage) :
    (reorderAssign now ids idx s).id = s.id := by
  unfold reorderAssign
  cases idxOfId s.id ids <;> rfl

/-- `reorderAssign` never changes a stage's owner. -/
theorem reorderAssign_userId (now : String) (ids : List String) (idx : Nat) (s : Stage) :
    (reorderAssign now ids idx s).userId = s.userId := by
  unfold reorderAssign
  cases idxOfId s.id ids <;> rfl

/-- The sequential per-id updates of `reorderStages`, started at position
`idx` with a duplicate-free id list, act on the table as the single map
`reorderAssign`. -/
theorem reorderFrom_eq_map (now : String) (ids : List String) (idx : Nat)
    (table : List Stage) (hnd : ids.Nodup) :
    stagesDb.reorderFrom now ids idx table = table.map (reorderAssign now ids idx) := by
  induction ids generalizing idx table with
  | nil =>
    show table = table.map (reorderAssign now [] idx)
    have hfun : reorderAssign now [] idx = fun s => s := by
      funext s; rfl
    rw [hfun, List.map_id']
  | cons a rest ih =>
    show stagesDb.reorderFrom now rest (idx + 1)
        (stagesDb.updateSortOrder now a (((idx : Int) + 1) * 10) table) =
      table.map (reorderAssign now (a :: rest) idx)
    rw [ih (idx + 1) _ (List.nodup_cons.mp hnd).2]
    unfold stagesDb.updateSortOrder
    rw [List.map_map]
    have hfun : reorderAssign now rest (idx + 1) ∘
        (fun s => if s.id == a then
          { s with sortOrder := ((idx : Int) + 1) * 10, updatedAt := now } else s) =
        reorderAssign now (a :: rest) idx := by
      funext s
      by_cases hsa : (s.id == a) = true
      · show reorderAssign now rest (idx + 1)
          (if s.id == a then
            { s with sortOrder := ((idx : Int) + 1) * 10, updatedAt := now } else s) = _
        rw [if_pos hsa]
        have hnotmem : s.id ∉ rest := by
          rw [beq_iff_eq.mp hsa]
          exact (List.nodup_cons.mp hnd).1
        have hnone : idxOfId s.id rest = none := idxOfId_eq_none_of_not_mem hnotmem
        simp only [reorderAssign, idxOfId, if_pos hsa, hnone]
        simp
      · show reorderAssign now rest (idx + 1)
          (if s.id == a then
            { s with sortOrder := ((idx : Int) + 1) * 10, updatedAt := now } else s) = _
        rw [if_neg hsa]
        simp only [reorderAssign, idxOfId, if_neg hsa]
        cases hj : idxOfId s.id rest with
        | none => rfl
        | some j =>
          dsimp only [Option.map_some']
          have harith : idx + 1 + j = idx + (j + 1) := by omega
          rw [harith]
    rw [hfun]

/-- C5: when the table's stage ids are distinct and `orderedStageIds` is a
permutation of the ids of the user's stages, running `reorderStages` (which
assigns `sortOrder = (index + 1) * 10` along the array) and then
`getAllForUser` (which sorts ascending by `sortOrder`) returns the stages in
exactly the order of the given id array. -/
theorem c5_reorder_then_fetch (now u : String) (table : List Stage)
    (ids : List String)
    (hndTable : (table.map (fun s => s.id)).Nodup)
    (hperm : List.Perm ids
      ((table.filter (fun s => s.userId == u)).map (fun s => s.id))) :
    (stagesDb.getAllForUser u (stagesDb.reorderStages now ids table)).map
      (fun s => s.id) = ids := by
  have hidsnd : ids.Nodup := by
    have hsub : ((table.filter (fun s => s.userId == u)).map (fun s => s.id)).Sublist
        (table.map (fun s => s.id)) :=
      List.Sublist.map _ (List.filter_sublist table)
    exact hperm.nodup_iff.mpr (List.Nodup.sublist hsub hndTable)
  have hreq : stagesDb.reorderStages now ids table =
      table.map (reorderAssign now ids 0) :=
    reorderFrom_eq_map now ids 0 table hidsnd
  have hpf : ((fun s : Stage => s.userId == u) ∘ reorderAssign now ids 0) =
      (fun s : Stage => s.userId == u) := by
    funext s
    show ((reorderAssign now ids 0 s).userId == u) = (s.userId == u)
    rw [reorderAssign_userId]
  have hout : stagesDb.getAllForUser u (stagesDb.reorderStages now ids table) =
      sortStages ((table.filter (fun s => s.userId == u)).map
        (reorderAssign now ids 0)) := by
    rw [hreq]
    show sortStages ((table.map (reorderAssign now ids 0)).filter
      (fun s => s.userId == u)) = _
    rw [List.filter_map, hpf]
  have hmapid : ((table.filter (fun s => s.userId == u)).map
      (reorderAssign now ids 0)).map (fun s => s.id) =
      (table.filter (fun s => s.userId == u)).map (fun s => s.id) := by
    rw [List.map_map]
    congr 1
    funext s
    exact reorderAssign_id now ids 0 s
  have hpermIds : List.Perm ((sortStages ((table.filter (fun s => s.userId == u)).map
      (reorderAssign now ids 0))).map (fun s => s.id)) ids := by
    have h1 := (sortStages_perm ((table.filter (fun s => s.userId == u)).map
      (reorderAssign now ids 0))).map (fun s => s.id)
    rw [hmapid] at h1
    exact h1.trans hperm.symm
  have hMnodup : ((sortStages ((table.filter (fun s => s.userId == u)).map
      (reorderAssign now ids 0))).map (fun s => s.id)).Nodup :=
    hpermIds.nodup_iff.mpr hidsnd
  have hshape : ∀ x ∈ (table.filter (fun s => s.userId == u)).map
      (reorderAssign now ids 0),
      ∃ j, idxOfId x.id ids = some j ∧ x.sortOrder = ((j : Int) + 1) * 10 := by
    intro x hx
    obtain ⟨a, ha, rfl⟩ := List.mem_map.mp hx
    have haid : a.id ∈ ids := hperm.mem_iff.mpr (List.mem_map_of_mem _ ha)
    obtain ⟨j, hj⟩ := idxOfId_isSome_of_mem haid
    refine ⟨j, ?_, ?_⟩
    · rw [reorderAssign_id]; exact hj
    · show (reorderAssign now ids 0 a).sortOrder = _
      unfold reorderAssign
      rw [hj]
      dsimp only
      norm_num
  have hpw_out : List.Pairwise (fun x y : Stage =>
      (idxOfId x.id ids).getD ids.length < (idxOfId y.id ids).getD ids.length)
      (sortStages ((table.filter (fun s => s.userId == u)).map
        (reorderAssign now ids 0))) := by
    have h1 : (sortStages ((table.filter (fun s => s.userId == u)).map
        (reorderAssign now ids 0))).Sorted stageLe := sortStages_sorted _
    have h2 : List.Pairwise (fun x y : Stage => x.id ≠ y.id)
        (sortStages ((table.filter (fun s => s.userId == u)).map
          (reorderAssign now ids 0))) :=
      List.pairwise_map.mp hMnodup
    refine List.Pairwise.imp_of_mem ?_ (List.Pairwise.and h1 h2)
    intro x y hx hy hr
    have hx' := (sortStages_perm _).mem_iff.mp hx
    have hy' := (sortStages_perm _).mem_iff.mp hy
    obtain ⟨jx, hjx, hsx⟩ := hshape x hx'
    obtain ⟨jy, hjy, hsy⟩ := hshape y hy'
    rw [hjx, hjy, Option.getD_some, Option.getD_some]
    have hle : ((jx : Int) + 1) * 10 ≤ ((jy : Int) + 1) * 10 := by
      rw [← hsx, ← hsy]; exact hr.1
    have hne : jx ≠ jy := by
      intro heq
      obtain ⟨hltx, hgx⟩ := idxOfId_get hjx
      obtain ⟨hlty, hgy⟩ := idxOfId_get (heq ▸ hjy)
      exact hr.2 (hgx ▸ hgy ▸ rfl)
    omega
  have hpw_ids : List.Pairwise (fun a b : String =>
      (idxOfId a ids).getD ids.length < (idxOfId b ids).getD ids.length) ids := by
    rw [List.pairwise_iff_get]
    intro i j hij
    rw [idxOfId_get_self hidsnd i, idxOfId_get_self hidsnd j,
      Option.getD_some, Option.getD_some]
    exact hij
  have hpw_mapids : List.Pairwise (fun a b : String =>
      (idxOfId a ids).getD ids.length < (idxOfId b ids).getD ids.length)
      ((sortStages ((table.filter (fun s => s.userId == u)).map
        (reorderAssign now ids 0))).map (fun s => s.id)) :=
    List.pairwise_map.mpr hpw_out
  haveI : IsAntisymm String (fun a b =>
      (idxOfId a ids).getD ids.length < (idxOfId b ids).getD ids.length) :=
    ⟨fun a b h1 h2 => absurd h1 (Nat.lt_asymm h2)⟩
  rw [hout]
  exact List.eq_of_perm_of_sorted hpermIds hpw_mapids hpw_ids

/-- C5 witness: reordering the user's three stages `[A, B, C]` to
`[C, A, B]` and fetching again lists them as `[C, A, B]`. -/
theorem c5_reorder_then_fetch_witness :
    (stagesDb.getAllForUser "u1" (stagesDb.reorderStages "t1" ["C", "A", "B"]
      [ ⟨"A", "u1", "Stage A", "", "gray", 10, false, "t0", "t0"⟩,
        ⟨"B", "u1", "Stage B", "", "blue", 20, false, "t0", "t0"⟩,
        ⟨"C", "u1", "Stage C", "", "red", 30, false, "t0", "t0"⟩ ])).map
      (fun s => s.id) = ["C", "A", "B"] :=
  c5_reorder_then_fetch "t1" "u1"
    [ ⟨"A", "u1", "Stage A", "", "gray", 10, false, "t0", "t0"⟩,
      ⟨"B", "u1", "Stage B", "", "blue", 20, false, "t0", "t0"⟩,
      ⟨"C", "u1", "Stage C", "", "red", 30, false, "t0", "t0"⟩ ]
    ["C", "A", "B"] (by decide) (by decide)
